import Mathlib

/-!
# OSPRD ramdisk lock manager (`osprd.c`)

A shallow embedding of the ticket-based reader/writer lock of the OSP ramdisk
driver, followed by theorems about it.

Conventions of the embedding.

* C `unsigned` values are natural numbers; every increment and decrement is
  taken modulo `2^32`, as the C arithmetic does.
* A `node_t *` that is never `NULL` (the three list heads of `osprd_info_t`)
  is a head value together with the values of the nodes that follow it.  The
  head value `(unsigned) -1` marks the empty list.
* `add_to_pid_list` never assigns `addMe->next`, and `kmalloc` does not clear
  the node.  The node values that this unassigned pointer leads to are a
  parameter `uninit` of every function that appends a holder; `uninit = []` is
  the case in which the memory happens to hold `NULL`.  A pointer that leads
  outside mapped memory or back into the list is outside the embedding.
* The spinlock is modelled by atomicity: each stretch of the source between
  `osp_spin_lock` and `osp_spin_unlock` is one function below and runs in one
  event.  The tests that the source makes with the spinlock released (the
  condition of `wait_event_interruptible` and the test of
  `OSPRDIOCTRYACQUIRE`) are events of their own, each reading the device state
  once, and any event of another process may run between such a test and the
  critical section that follows it.
* `wake_up_all(&d->blockq)` is recorded as the boolean `woke` of a result.
-/

namespace Osprd

/-! ## Constants -/

/-- Number of values of a C `unsigned`. -/
def U32 : Nat := 4294967296

/-- The value `(unsigned) -1`, used by the source as the empty-list marker. -/
def NIL : Nat := 4294967295

/-- Flag `F_OSPRD_LOCKED` of `osprd.c`. -/
def F_OSPRD_LOCKED : Nat := 0x80000

/-- The 32-bit complement `~F_OSPRD_LOCKED`. -/
def NOT_F_OSPRD_LOCKED : Nat := 0xFFF7FFFF

/-- Kernel constant `FMODE_WRITE` of `linux/fs.h`. -/
def FMODE_WRITE : Nat := 2

/-- Kernel error number `EDEADLK` of `linux/errno.h`. -/
def EDEADLK : Int := 35

/-- Kernel error number `ERESTARTSYS` of `linux/errno.h`. -/
def ERESTARTSYS : Int := 512

/-- Kernel error number `EBUSY` of `linux/errno.h`. -/
def EBUSY : Int := 16

/-- Kernel error number `EINVAL` of `linux/errno.h`. -/
def EINVAL : Int := 22

/-! ## Data model -/

/-- A non-null `node_t *`: the head node's `val` and the `val`s of the nodes
reached through `next`, in order. -/
structure node_t where
  val : Nat
  next : List Nat
deriving DecidableEq, Repr

/-- The values stored in the nodes of a list, head first. -/
def node_t.vals (n : node_t) : List Nat := n.val :: n.next

/-- The process identities recorded in a holder list: the node values other
than the empty marker. -/
def holders (n : node_t) : List Nat := n.vals.filter (fun v => v != NIL)

/-- The tickets recorded in an invalid-ticket list: none when the head carries
the empty marker, otherwise every node value. -/
def tickets (n : node_t) : List Nat := if n.val = NIL then [] else n.vals

/-- The lock fields of `osprd_info_t`. -/
structure osprd_info where
  ticket_head : Nat
  ticket_tail : Nat
  nread : Nat
  nwrite : Nat
  invalid_tickets : node_t
  write_locking_pids : node_t
  read_locking_pids : node_t
deriving DecidableEq, Repr

/-- The fields of `struct file` that the driver reads or writes. -/
structure file where
  f_flags : Nat
  f_mode : Nat
deriving DecidableEq, Repr

/-- The outcome of one driver entry point: the return value, the device and
handle afterwards, and whether `wake_up_all` was called. -/
structure result where
  r : Int
  d : osprd_info
  filp : file
  woke : Bool
deriving DecidableEq, Repr

/-! ## List helpers -/

/-- The recursion of `return_valid_ticket`, with a bound on the number of
calls; `none` when the bound is exhausted. -/
def return_valid_ticket_calls : Nat → node_t → Nat → Option Nat
  | 0, _, _ => none
  | fuel + 1, invalid_tickets, ticket =>
    if invalid_tickets.val = NIL then some ticket
    else if ticket ∈ invalid_tickets.vals then
      return_valid_ticket_calls fuel invalid_tickets ((ticket + 1) % U32)
    else some ticket

/-- Function `return_valid_ticket`.  The source recurses once for every
consecutive ticket found in the list, so it returns within one call more than
the list has nodes unless every 32-bit value is in the list, in which case the
source never returns; this is the result `none`. -/
def return_valid_ticket (invalid_tickets : node_t) (ticket : Nat) : Option Nat :=
  return_valid_ticket_calls (invalid_tickets.vals.length + 1) invalid_tickets ticket

/-- Function `add_to_ticket_list`. -/
def add_to_ticket_list (invalid_tickets : node_t) (ticket : Nat) : node_t :=
  if invalid_tickets.val = NIL then ⟨ticket, []⟩
  else ⟨invalid_tickets.val, invalid_tickets.next ++ [ticket]⟩

/-- Function `add_to_pid_list`.  An empty list is filled in place and its
`next` is set to `NULL`.  Otherwise the fresh node `addMe` is linked after the
last node; the source assigns `addMe->val` only, so the list continues with
whatever `addMe->next` leads to, the node values `uninit`. -/
def add_to_pid_list (pid_list : node_t) (pid : Nat) (uninit : List Nat := []) : node_t :=
  if pid_list.val = NIL then ⟨pid, []⟩
  else ⟨pid_list.val, pid_list.next ++ pid :: uninit⟩

/-- Function `remove_from_list`: an empty list is left alone, a one-node list
is emptied, and otherwise the first node after the head that holds `value` is
unlinked. -/
def remove_from_list (node : node_t) (value : Nat) : node_t :=
  if node.val = NIL then node
  else if node.next = [] then ⟨NIL, []⟩
  else ⟨node.val, node.next.erase value⟩

/-! ## Driver entry points -/

/-- Function `osprd_setup`, lock fields only. -/
def osprd_setup : osprd_info :=
  { ticket_head := 0, ticket_tail := 0, nread := 0, nwrite := 0,
    invalid_tickets := ⟨NIL, []⟩,
    write_locking_pids := ⟨NIL, []⟩,
    read_locking_pids := ⟨NIL, []⟩ }

/-- The local `filp_writable` of `osprd_ioctl` and `osprd_close_last`. -/
def filp_writable (filp : file) : Bool := (filp.f_mode &&& FMODE_WRITE) != 0

/-- The test `filp->f_flags == (filp->f_flags | F_OSPRD_LOCKED)`. -/
def is_locked (filp : file) : Bool := filp.f_flags == (filp.f_flags ||| F_OSPRD_LOCKED)

/-- The C statement `x++` on an `unsigned`. -/
def incr (x : Nat) : Nat := (x + 1) % U32

/-- The C statement `x--` on an `unsigned`. -/
def decr (x : Nat) : Nat := (x + U32 - 1) % U32

/-- The deadlock test of `OSPRDIOCACQUIRE`: the caller's pid is the value of
the head node of the writer list, or the value of some node of the reader
list. -/
def deadlock_check (d : osprd_info) (pid : Nat) : Bool :=
  pid == d.write_locking_pids.val || d.read_locking_pids.vals.contains pid

/-- The first critical section of `OSPRDIOCACQUIRE`: the deadlock test, then
the ticket issue.  The result is the error value, or the ticket taken and the
device afterwards. -/
def acquire_ticket (d : osprd_info) (pid : Nat) : Except Int (Nat × osprd_info) :=
  if deadlock_check d pid then .error (-EDEADLK)
  else .ok (d.ticket_head, { d with ticket_head := incr d.ticket_head })

/-- The condition of `wait_event_interruptible` in `OSPRDIOCACQUIRE`, which is
also the grant condition of `OSPRDIOCTRYACQUIRE`. -/
def wait_condition (writable : Bool) (d : osprd_info) (my_ticket : Nat) : Bool :=
  if writable then d.ticket_tail == my_ticket && d.nwrite == 0 && d.nread == 0
  else d.ticket_tail == my_ticket && d.nwrite == 0

/-- The branch of `OSPRDIOCACQUIRE` taken when `wait_event_interruptible`
returns nonzero (the same statements for both modes). -/
def acquire_interrupted (d : osprd_info) (filp : file) (my_ticket : Nat) : Option result :=
  if d.ticket_tail = my_ticket then
    (return_valid_ticket d.invalid_tickets (incr d.ticket_tail)).map fun t =>
      { r := -ERESTARTSYS, d := { d with ticket_tail := t }, filp := filp, woke := true }
  else
    some { r := -ERESTARTSYS,
           d := { d with invalid_tickets := add_to_ticket_list d.invalid_tickets my_ticket },
           filp := filp, woke := false }

/-- The critical section that grants the lock, the same statements in
`OSPRDIOCACQUIRE` (after `wait_event_interruptible` returns 0) and in
`OSPRDIOCTRYACQUIRE` (after its test succeeds).  The wait condition is not
tested again here, and no `wake_up_all` is issued.  `uninit` is the unassigned
`addMe->next` of `add_to_pid_list`. -/
def grant_lock (d : osprd_info) (filp : file) (pid : Nat) (uninit : List Nat := []) :
    Option result :=
  let filp1 : file := { filp with f_flags := filp.f_flags ||| F_OSPRD_LOCKED }
  if filp_writable filp then
    (return_valid_ticket d.invalid_tickets (incr d.ticket_tail)).map fun t =>
      { r := 0,
        d := { d with write_locking_pids := add_to_pid_list d.write_locking_pids pid uninit,
                      nwrite := incr d.nwrite, ticket_tail := t },
        filp := filp1, woke := false }
  else
    (return_valid_ticket d.invalid_tickets (incr d.ticket_tail)).map fun t =>
      { r := 0,
        d := { d with read_locking_pids := add_to_pid_list d.read_locking_pids pid uninit,
                      nread := incr d.nread, ticket_tail := t },
        filp := filp1, woke := false }

/-- The first critical section of `OSPRDIOCTRYACQUIRE`: the ticket issue.  The
result is the ticket taken and the device afterwards. -/
def tryacquire_ticket (d : osprd_info) : Nat × osprd_info :=
  (d.ticket_head, { d with ticket_head := incr d.ticket_head })

/-- The critical section of `OSPRDIOCTRYACQUIRE` that runs after its test has
failed (the same statements for both modes). -/
def tryacquire_failed (d : osprd_info) (filp : file) : Option result :=
  (return_valid_ticket d.invalid_tickets (incr d.ticket_tail)).map fun t =>
    { r := -EBUSY, d := { d with ticket_tail := t }, filp := filp, woke := false }

/-- Command `OSPRDIOCTRYACQUIRE` of `osprd_ioctl`, run with no event of another
process between its ticket issue, its test and the critical section that
follows the test. -/
def osprd_ioctl_tryacquire (d : osprd_info) (filp : file) (pid : Nat)
    (uninit : List Nat := []) : Option result :=
  let my_ticket := (tryacquire_ticket d).1
  let d1 : osprd_info := (tryacquire_ticket d).2
  if wait_condition (filp_writable filp) d1 my_ticket then grant_lock d1 filp pid uninit
  else tryacquire_failed d1 filp

/-- The statements that drop a held lock, shared by `OSPRDIOCRELEASE` and
`osprd_close_last`. -/
def drop_lock (d : osprd_info) (filp : file) (pid : Nat) : osprd_info :=
  if filp_writable filp then
    { d with write_locking_pids := remove_from_list d.write_locking_pids pid,
             nwrite := decr d.nwrite }
  else
    { d with read_locking_pids := remove_from_list d.read_locking_pids pid,
             nread := decr d.nread }

/-- Command `OSPRDIOCRELEASE` of `osprd_ioctl`. -/
def osprd_ioctl_release (d : osprd_info) (filp : file) (pid : Nat) : result :=
  if is_locked filp then
    { r := 0, d := drop_lock d filp pid,
      filp := { filp with f_flags := filp.f_flags &&& NOT_F_OSPRD_LOCKED }, woke := true }
  else { r := -EINVAL, d := d, filp := filp, woke := false }

/-- Function `osprd_close_last`. -/
def osprd_close_last (d : osprd_info) (filp : file) (pid : Nat) : result :=
  if is_locked filp then
    { r := 0, d := drop_lock d filp pid,
      filp := { filp with f_flags := filp.f_flags &&& NOT_F_OSPRD_LOCKED }, woke := true }
  else { r := 0, d := d, filp := filp, woke := false }

/-! ## Callers

Several processes share one device.  One `op` is one event of one process: a
critical section of the source, or a test that the source makes with the
spinlock released.  A process that has taken a ticket in `OSPRDIOCACQUIRE` and
whose wait has not yet returned is a `waiter`; a process between a test and
the critical section that follows it, or between the ticket issue of
`OSPRDIOCTRYACQUIRE` and its test, is a `pending` call. -/

/-- A process in `wait_event_interruptible` whose wait has not returned: its
pid, the index of the handle it called through, and the local `my_ticket`. -/
structure waiter where
  pid : Nat
  fd : Nat
  ticket : Nat
deriving DecidableEq, Repr

/-- Where a call stands that has made progress past its ticket issue and has
not returned. -/
inductive phase where
  /-- `OSPRDIOCTRYACQUIRE` has its ticket and has not made its test. -/
  | testing
  /-- The wait returned 0, or the test of `OSPRDIOCTRYACQUIRE` succeeded: the
  critical section that grants the lock comes next. -/
  | granting
  /-- The wait returned nonzero: the critical section of the interrupted
  branch comes next. -/
  | interrupted
  /-- The test of `OSPRDIOCTRYACQUIRE` failed: the critical section of its
  failure branch comes next. -/
  | failing
deriving DecidableEq, Repr

/-- A call that is past its ticket issue: the pid, the index of the handle,
the local `my_ticket`, and where the call stands. -/
structure pending where
  pid : Nat
  fd : Nat
  ticket : Nat
  ph : phase
deriving DecidableEq, Repr

/-- The device, the open handles, the processes whose wait has not returned,
and the calls that stand between a test and their next critical section. -/
structure sys where
  d : osprd_info
  files : List file
  waiting : List waiter
  inflight : List pending := []
deriving DecidableEq, Repr

/-- The events of an execution.  The events `wait_ok`, `wait_signal`,
`try_ticket`, `try_test` and `finish` are the single steps of the source.  The
events `grant`, `interrupt` and `tryacquire` are the schedules in which no
other process runs between a test and the critical section that follows it:
`grant i` is `wait_ok i` followed at once by `finish` of the same call, and so
on.  `uninit` is the unassigned `addMe->next` of `add_to_pid_list`, `[]` when
it is not given. -/
inductive op where
  /-- Process `pid` enters `OSPRDIOCACQUIRE` on handle `fd` and runs the
  deadlock test and the ticket issue. -/
  | acquire (pid fd : Nat)
  /-- The wait of the `i`-th waiter returns 0 and the lock is granted with no
  other event in between. -/
  | grant (i : Nat) (uninit : List Nat := [])
  /-- The wait of the `i`-th waiter is ended by a signal and the interrupted
  branch runs with no other event in between. -/
  | interrupt (i : Nat)
  /-- Process `pid` runs `OSPRDIOCTRYACQUIRE` on handle `fd` with no other
  event in between. -/
  | tryacquire (pid fd : Nat) (uninit : List Nat := [])
  /-- Process `pid` runs `OSPRDIOCRELEASE` on handle `fd`. -/
  | release (pid fd : Nat)
  /-- Process `pid` drops the last reference to handle `fd`. -/
  | close (pid fd : Nat)
  /-- The `i`-th waiter finds its wait condition true:
  `wait_event_interruptible` returns 0. -/
  | wait_ok (i : Nat)
  /-- The `i`-th waiter finds its wait condition false with a signal pending:
  `wait_event_interruptible` returns nonzero. -/
  | wait_signal (i : Nat)
  /-- Process `pid` enters `OSPRDIOCTRYACQUIRE` on handle `fd` and runs the
  ticket issue. -/
  | try_ticket (pid fd : Nat)
  /-- The `j`-th pending call, an `OSPRDIOCTRYACQUIRE` that has its ticket,
  makes its test. -/
  | try_test (j : Nat)
  /-- The `j`-th pending call runs the critical section that its test led to,
  and returns. -/
  | finish (j : Nat) (uninit : List Nat := [])
deriving DecidableEq, Repr

/-- The state after `osprd_setup`, with the given handles open.  A handle that
is opened later, or opened again after a close, is a slot of `files` that no
event has used yet or that `close` has left unlocked. -/
def sys_setup (files : List file) : sys :=
  { d := osprd_setup, files := files, waiting := [] }

/-- Whether process `pid` is inside a call that has not returned. -/
def is_blocked (s : sys) (pid : Nat) : Bool :=
  (s.waiting.any fun w => w.pid == pid) || (s.inflight.any fun p => p.pid == pid)

/-- Whether some call that has not returned was made through handle `fd`. -/
def fd_in_use (s : sys) (fd : Nat) : Bool :=
  (s.waiting.any fun w => w.fd == fd) || (s.inflight.any fun p => p.fd == fd)

/-- The critical section that a pending call runs next, by the outcome of its
test; nothing while the test is still to be made. -/
def finish_call (d : osprd_info) (filp : file) (p : pending) (uninit : List Nat) :
    Option result :=
  match p.ph with
  | .testing => none
  | .granting => grant_lock d filp p.pid uninit
  | .interrupted => acquire_interrupted d filp p.ticket
  | .failing => tryacquire_failed d filp

/-- One event.  The result is `none` when the event cannot happen in this
state: the process is inside another call, the handle does not exist, the
test has the other outcome, a handle is closed while a call is inside it, or
`return_valid_ticket` does not return. -/
def step (s : sys) : op → Option sys
  | .acquire pid fd =>
    if is_blocked s pid then none
    else match s.files[fd]? with
      | none => none
      | some _ =>
        match acquire_ticket s.d pid with
        | .error _ => some s
        | .ok (t, d1) => some { s with d := d1, waiting := s.waiting ++ [⟨pid, fd, t⟩] }
  | .grant i uninit =>
    match s.waiting[i]? with
    | none => none
    | some w =>
      match s.files[w.fd]? with
      | none => none
      | some filp =>
        if wait_condition (filp_writable filp) s.d w.ticket then
          (grant_lock s.d filp w.pid uninit).map fun res =>
            { s with d := res.d, files := s.files.set w.fd res.filp,
                     waiting := s.waiting.eraseIdx i }
        else none
  | .interrupt i =>
    match s.waiting[i]? with
    | none => none
    | some w =>
      match s.files[w.fd]? with
      | none => none
      | some filp =>
        if wait_condition (filp_writable filp) s.d w.ticket then none
        else
          (acquire_interrupted s.d filp w.ticket).map fun res =>
            { s with d := res.d, files := s.files.set w.fd res.filp,
                     waiting := s.waiting.eraseIdx i }
  | .tryacquire pid fd uninit =>
    if is_blocked s pid then none
    else match s.files[fd]? with
      | none => none
      | some filp =>
        (osprd_ioctl_tryacquire s.d filp pid uninit).map fun res =>
          { s with d := res.d, files := s.files.set fd res.filp }
  | .release pid fd =>
    if is_blocked s pid then none
    else match s.files[fd]? with
      | none => none
      | some filp =>
        let res := osprd_ioctl_release s.d filp pid
        some { s with d := res.d, files := s.files.set fd res.filp }
  | .close pid fd =>
    if is_blocked s pid || fd_in_use s fd then none
    else match s.files[fd]? with
      | none => none
      | some filp =>
        let res := osprd_close_last s.d filp pid
        some { s with d := res.d, files := s.files.set fd res.filp }
  | .wait_ok i =>
    match s.waiting[i]? with
    | none => none
    | some w =>
      match s.files[w.fd]? with
      | none => none
      | some filp =>
        if wait_condition (filp_writable filp) s.d w.ticket then
          some { s with waiting := s.waiting.eraseIdx i,
                        inflight := s.inflight ++ [⟨w.pid, w.fd, w.ticket, .granting⟩] }
        else none
  | .wait_signal i =>
    match s.waiting[i]? with
    | none => none
    | some w =>
      match s.files[w.fd]? with
      | none => none
      | some filp =>
        if wait_condition (filp_writable filp) s.d w.ticket then none
        else
          some { s with waiting := s.waiting.eraseIdx i,
                        inflight := s.inflight ++ [⟨w.pid, w.fd, w.ticket, .interrupted⟩] }
  | .try_ticket pid fd =>
    if is_blocked s pid then none
    else match s.files[fd]? with
      | none => none
      | some _ =>
        some { s with d := (tryacquire_ticket s.d).2,
                      inflight := s.inflight ++ [⟨pid, fd, (tryacquire_ticket s.d).1, .testing⟩] }
  | .try_test j =>
    match s.inflight[j]? with
    | none => none
    | some p =>
      match s.files[p.fd]? with
      | none => none
      | some filp =>
        match p.ph with
        | .testing =>
          if wait_condition (filp_writable filp) s.d p.ticket then
            some { s with inflight := s.inflight.set j { p with ph := .granting } }
          else
            some { s with inflight := s.inflight.set j { p with ph := .failing } }
        | _ => none
  | .finish j uninit =>
    match s.inflight[j]? with
    | none => none
    | some p =>
      match s.files[p.fd]? with
      | none => none
      | some filp =>
        (finish_call s.d filp p uninit).map fun res =>
          { s with d := res.d, files := s.files.set p.fd res.filp,
                   inflight := s.inflight.eraseIdx j }

/-- A sequence of events. -/
def run (s : sys) : List op → Option sys
  | [] => some s
  | o :: os =>
    match step s o with
    | none => none
    | some s1 => run s1 os

/-- No event of the sequence starts in a state whose `ticket_head` is the
largest 32-bit value: the ticket counter does not wrap around. -/
def no_wrap (s : sys) : List op → Bool
  | [] => true
  | o :: os =>
    decide (s.d.ticket_head < NIL) &&
      match step s o with
      | none => true
      | some s1 => no_wrap s1 os

/-- The ticket for which event `o` runs the critical section that grants the
lock in state `s`, if it runs it: the ticket of the waiter for `grant`, the
ticket just taken for a `tryacquire` whose test succeeds, the ticket of the
pending call for a `finish` of a call whose test succeeded. -/
def granted_ticket (s : sys) : op → Option Nat
  | .grant i uninit =>
    match step s (.grant i uninit), s.waiting[i]? with
    | some _, some w => some w.ticket
    | _, _ => none
  | .tryacquire pid fd uninit =>
    match step s (.tryacquire pid fd uninit), s.files[fd]? with
    | some _, some filp =>
      if wait_condition (filp_writable filp) { s.d with ticket_head := incr s.d.ticket_head }
          s.d.ticket_head then some s.d.ticket_head
      else none
    | _, _ => none
  | .finish j uninit =>
    match step s (.finish j uninit), s.inflight[j]? with
    | some _, some p =>
      match p.ph with
      | .granting => some p.ticket
      | _ => none
    | _, _ => none
  | _ => none

/-- The tickets for which the lock is granted along a sequence of events,
oldest first. -/
def grant_log (s : sys) : List op → List Nat
  | [] => []
  | o :: os =>
    match step s o with
    | none => []
    | some s1 =>
      match granted_ticket s o with
      | some t => t :: grant_log s1 os
      | none => grant_log s1 os

/-! ## Specification predicates and example states -/

/-- A handle opened read-only (`O_RDONLY | O_SYNC`, `FMODE_READ`). -/
def read_handle : file := { f_flags := 0x1000, f_mode := 1 }

/-- A handle opened read-write (`O_RDWR | O_SYNC`, `FMODE_READ | FMODE_WRITE`). -/
def write_handle : file := { f_flags := 0x1002, f_mode := 3 }

/-- A writable handle whose locked flag is set. -/
def wlocked (f : file) : Bool := filp_writable f && is_locked f

/-- A read-only handle whose locked flag is set. -/
def rlocked (f : file) : Bool := !filp_writable f && is_locked f

/-- Four open handles: one writable, three read-only. -/
def fairness_files : List file := [write_handle, read_handle, read_handle, read_handle]

/-- Process 1 takes the write lock; processes 2 and 3 block for the read
lock with tickets 1 and 2; process 4 tries to take the read lock and fails;
process 1 releases; the wait of process 3 returns 0. -/
def skip_trace : List op :=
  [.acquire 1 0, .grant 0, .acquire 2 1, .acquire 3 2, .tryacquire 4 3, .release 1 0, .grant 1]

/-- The state at the end of `skip_trace`. -/
def skip_state : sys :=
  { d := { ticket_head := 4, ticket_tail := 3, nread := 1, nwrite := 0,
           invalid_tickets := ⟨NIL, []⟩,
           write_locking_pids := ⟨NIL, []⟩,
           read_locking_pids := ⟨3, []⟩ },
    files := [write_handle, read_handle, { f_flags := 0x81000, f_mode := 1 }, read_handle],
    waiting := [⟨2, 1, 1⟩] }

/-- Two processes hold the read lock, process 1 through handle 0 and process 2
through handle 1. -/
def two_readers : osprd_info :=
  { ticket_head := 2, ticket_tail := 2, nread := 2, nwrite := 0,
    invalid_tickets := ⟨NIL, []⟩,
    write_locking_pids := ⟨NIL, []⟩,
    read_locking_pids := ⟨1, [2]⟩ }

/-- A read-only handle whose locked flag is set. -/
def locked_read_handle : file := { f_flags := 0x81000, f_mode := 1 }

/-- Process 1 holds the write lock and process 2 is blocked with ticket 1. -/
def writer_and_waiter : osprd_info :=
  { ticket_head := 2, ticket_tail := 1, nread := 0, nwrite := 1,
    invalid_tickets := ⟨NIL, []⟩,
    write_locking_pids := ⟨1, []⟩,
    read_locking_pids := ⟨NIL, []⟩ }

/-- Process 5 holds the read lock and nobody holds the write lock. -/
def one_reader : osprd_info :=
  { ticket_head := 1, ticket_tail := 1, nread := 1, nwrite := 0,
    invalid_tickets := ⟨NIL, []⟩,
    write_locking_pids := ⟨NIL, []⟩,
    read_locking_pids := ⟨5, []⟩ }

/-- What the specification promises of the cursor when the wait for
`my_ticket` is interrupted in device state `d`, with outcome `res`. -/
def interrupted_post (d : osprd_info) (my_ticket : Nat) (res : result) : Prop :=
  (d.ticket_tail = my_ticket →
    my_ticket < res.d.ticket_tail ∧
    res.d.ticket_tail ∉ tickets d.invalid_tickets ∧
    (∀ v, my_ticket < v → v ∉ tickets d.invalid_tickets → res.d.ticket_tail ≤ v) ∧
    (∀ w, my_ticket < w → w ∉ tickets d.invalid_tickets →
      (∀ v, my_ticket < v → v < w → v ∈ tickets d.invalid_tickets) →
      res.d.ticket_tail = w) ∧
    res.d.invalid_tickets = d.invalid_tickets) ∧
  (d.ticket_tail ≠ my_ticket →
    res.d.ticket_tail = d.ticket_tail ∧ my_ticket ∈ tickets res.d.invalid_tickets)

/-- Process 1 holds the write lock; tickets 1 and 3 are held by blocked
processes and ticket 2 was abandoned by an interrupted one. -/
def writer_and_gap : osprd_info :=
  { ticket_head := 4, ticket_tail := 1, nread := 0, nwrite := 1,
    invalid_tickets := ⟨2, []⟩,
    write_locking_pids := ⟨1, []⟩,
    read_locking_pids := ⟨NIL, []⟩ }

/-- The handles of the writer-then-two-readers scenario: caller 1 has the
writable handle 0, callers 2 and 3 the read-only handles 1 and 2. -/
def scenario_files : List file := [write_handle, read_handle, read_handle]

/-- Callers 1, 2, 3 issue blocking acquires in that order and the wait of
caller 1 returns 0. -/
def scenario_start : List op := [.acquire 1 0, .acquire 2 1, .acquire 3 2, .grant 0]

/-- The state at the end of `scenario_start`: caller 1 holds the write lock,
callers 2 and 3 are blocked with tickets 1 and 2. -/
def scenario_held : sys :=
  { d := { ticket_head := 3, ticket_tail := 1, nread := 0, nwrite := 1,
           invalid_tickets := ⟨NIL, []⟩,
           write_locking_pids := ⟨1, []⟩,
           read_locking_pids := ⟨NIL, []⟩ },
    files := [{ f_flags := 0x81002, f_mode := 3 }, read_handle, read_handle],
    waiting := [⟨2, 1, 1⟩, ⟨3, 2, 2⟩] }

/-- The scenario up to the point where caller 1 has released and the waits of
callers 2 and 3 have returned 0, in that order. -/
def scenario_granted : List op := scenario_start ++ [.release 1 0, .grant 0, .grant 0]

/-- Caller 1 has released the write lock; callers 2 and 3 are still blocked
with tickets 1 and 2. -/
def readers_waiting : osprd_info :=
  { ticket_head := 3, ticket_tail := 1, nread := 0, nwrite := 0,
    invalid_tickets := ⟨NIL, []⟩,
    write_locking_pids := ⟨NIL, []⟩,
    read_locking_pids := ⟨NIL, []⟩ }

/-- Process 1 takes the write lock; processes 2, 3 and 4 block for the read
lock with tickets 1, 2 and 3; the wait of process 3 is interrupted. -/
def gap_trace : List op :=
  [.acquire 1 0, .grant 0, .acquire 2 1, .acquire 3 2, .acquire 4 3, .interrupt 1]

/-- The state at the end of `gap_trace`; its device state is `writer_and_gap`. -/
def gap_state : sys :=
  { d := writer_and_gap,
    files := [{ f_flags := 0x81002, f_mode := 3 }, read_handle, read_handle, read_handle],
    waiting := [⟨2, 1, 1⟩, ⟨4, 3, 3⟩] }

/-- The state after the wait of process 2 is interrupted in `gap_state`. -/
def gap_next : sys :=
  { d := { writer_and_gap with ticket_tail := 3 },
    files := [{ f_flags := 0x81002, f_mode := 3 }, read_handle, read_handle, read_handle],
    waiting := [⟨4, 3, 3⟩] }

/-- The invalid-ticket list built by `add_to_ticket_list` from the empty list,
adding the tickets of `ts` in order. -/
def ticket_list_of (ts : List Nat) : node_t := ts.foldl add_to_ticket_list ⟨NIL, []⟩

/-- The number of recursive calls that `return_valid_ticket` makes: the
recursion of `return_valid_ticket_calls`, counting the calls instead of
returning the ticket. -/
def return_valid_ticket_depth : Nat → node_t → Nat → Option Nat
  | 0, _, _ => none
  | fuel + 1, invalid_tickets, ticket =>
    if invalid_tickets.val = NIL then some 0
    else if ticket ∈ invalid_tickets.vals then
      (return_valid_ticket_depth fuel invalid_tickets ((ticket + 1) % U32)).map (· + 1)
    else some 0

/-- The tickets of the calls that have taken a ticket and have not returned. -/
def held_tickets (s : sys) : List Nat :=
  s.waiting.map (fun w => w.ticket) ++ s.inflight.map (fun p => p.ticket)

/-- The number of entries of `invalid_tickets` above `ticket_tail`. -/
def invalid_ahead (d : osprd_info) : Nat :=
  (tickets d.invalid_tickets).countP fun v => decide (d.ticket_tail < v)

/-- The relation between the ticket counters, the invalid-ticket list and the
calls in progress that every event preserves while `ticket_head` does not wrap
around.  Every ticket issued and not yet used up pays for one step of
`ticket_tail`: a call in progress will advance it or record its ticket, and a
recorded ticket above `ticket_tail` will be skipped. -/
structure ticket_inv (s : sys) : Prop where
  head_le : s.d.ticket_head ≤ NIL
  invalid_lt : ∀ v ∈ tickets s.d.invalid_tickets, v < s.d.ticket_head
  held_lt : ∀ t ∈ held_tickets s, t < s.d.ticket_head
  tail_valid : s.d.ticket_tail ∉ tickets s.d.invalid_tickets
  budget : s.d.ticket_tail + (held_tickets s).length + invalid_ahead s.d ≤ s.d.ticket_head

/-- The handles of the race between a reader and a writer: caller 1 has the
read-only handle 0, caller 2 the read-only handle 1, caller 3 the writable
handle 2. -/
def race_reader_files : List file := [read_handle, read_handle, write_handle]

/-- The handles of the race between two writers: caller 1 has the writable
handle 0, caller 2 the read-only handle 1, caller 3 the writable handle 2. -/
def race_writer_files : List file := [write_handle, read_handle, write_handle]

/-- A schedule of single steps in which a grant is overtaken.  Callers 1 and 3
enter `OSPRDIOCACQUIRE` and take tickets 0 and 1.  Caller 1 finds its wait
condition true (`ticket_tail = 0`, nothing held) and has not yet taken the
spinlock for the grant.  Caller 2 runs `OSPRDIOCTRYACQUIRE`: it takes ticket 2,
its test fails, and its failure branch moves `ticket_tail` from 0 to 1.  Caller
3 now evaluates its wait condition for the first time, finds it true
(`ticket_tail = 1`, nothing held) and is granted the lock.  Then caller 1 runs
its grant statements, which do not test the condition again. -/
def race_trace : List op :=
  [.acquire 1 0, .acquire 3 2, .wait_ok 0, .try_ticket 2 1, .try_test 1, .finish 1,
   .wait_ok 0, .finish 1, .finish 0]

/-- The state at the end of `race_trace` on `race_reader_files`: caller 3
holds the write lock and caller 1 the read lock. -/
def race_reader_state : sys :=
  { d := { ticket_head := 3, ticket_tail := 3, nread := 1, nwrite := 1,
           invalid_tickets := ⟨NIL, []⟩,
           write_locking_pids := ⟨3, []⟩,
           read_locking_pids := ⟨1, []⟩ },
    files := [locked_read_handle, read_handle, { f_flags := 0x81002, f_mode := 3 }],
    waiting := [] }

/-- The state at the end of `race_trace` on `race_writer_files`: callers 3 and
1 both hold the write lock, and the writer list is `3 -> 1`. -/
def race_writer_state : sys :=
  { d := { ticket_head := 3, ticket_tail := 3, nread := 0, nwrite := 2,
           invalid_tickets := ⟨NIL, []⟩,
           write_locking_pids := ⟨3, [1]⟩,
           read_locking_pids := ⟨NIL, []⟩ },
    files := [{ f_flags := 0x81002, f_mode := 3 }, read_handle,
              { f_flags := 0x81002, f_mode := 3 }],
    waiting := [] }

/-! ## Lemmas on the list helpers -/

theorem tickets_subset_vals (l : node_t) : tickets l ⊆ l.vals := by
  unfold tickets
  split
  · exact List.nil_subset _
  · exact fun _ h => h

theorem calls_least (l : node_t) :
    ∀ (f t v0 : Nat), t ≤ v0 → v0 < U32 → v0 ∉ tickets l → v0 - t < f →
      ∃ r, return_valid_ticket_calls f l t = some r ∧ t ≤ r ∧ r ∉ tickets l ∧
        ∀ v, t ≤ v → v ∉ tickets l → r ≤ v := by
  intro f
  induction f with
  | zero => intro t v0 _ _ _ h; omega
  | succ f ih =>
    intro t v0 h1 h2 h3 h4
    unfold return_valid_ticket_calls
    by_cases hnil : l.val = NIL
    · refine ⟨t, by simp [hnil], le_refl _, by simp [tickets, hnil], fun v hv _ => hv⟩
    · by_cases hmem : t ∈ l.vals
      · have hne : t ≠ v0 := by
          rintro rfl
          exact h3 (by simpa [tickets, hnil] using hmem)
        have hlt : t + 1 < U32 := by omega
        have hmod : (t + 1) % U32 = t + 1 := Nat.mod_eq_of_lt hlt
        obtain ⟨r, hr, hr1, hr2, hr3⟩ := ih (t + 1) v0 (by omega) h2 h3 (by omega)
        refine ⟨r, by simp [hnil, hmem, hmod, hr], by omega, hr2, ?_⟩
        intro v hv hvn
        have : v ≠ t := by
          rintro rfl
          exact hvn (by simpa [tickets, hnil] using hmem)
        exact hr3 v (by omega) hvn
      · refine ⟨t, by simp [hnil, hmem], le_refl _, by simpa [tickets, hnil] using hmem,
          fun v hv _ => hv⟩

theorem nonmember_near (T : List Nat) (t v0 : Nat) (h1 : t ≤ v0) (h3 : v0 ∉ T) :
    ∃ v1, t ≤ v1 ∧ v1 ≤ v0 ∧ v1 ∉ T ∧ v1 - t ≤ T.length := by
  classical
  have hex : ∃ v, t ≤ v ∧ v ∉ T := ⟨v0, h1, h3⟩
  refine ⟨Nat.find hex, (Nat.find_spec hex).1, Nat.find_min' hex ⟨h1, h3⟩,
    (Nat.find_spec hex).2, ?_⟩
  have hsub : List.range' t (Nat.find hex - t) ⊆ T := by
    intro v hv
    rw [List.mem_range'_1] at hv
    by_contra hvT
    exact Nat.find_min hex (by omega) ⟨hv.1, hvT⟩
  have := (List.subperm_of_subset (List.nodup_range' t (Nat.find hex - t)) hsub).length_le
  simpa using this

/-- When some 32-bit value from `t` on is not in the list, `return_valid_ticket`
returns the least such value. -/
theorem return_valid_ticket_least (l : node_t) (t v0 : Nat) (h1 : t ≤ v0) (h2 : v0 < U32)
    (h3 : v0 ∉ tickets l) :
    ∃ r, return_valid_ticket l t = some r ∧ t ≤ r ∧ r ≤ v0 ∧ r ∉ tickets l ∧
      ∀ v, t ≤ v → v ∉ tickets l → r ≤ v := by
  obtain ⟨v1, a1, a2, a3, a4⟩ := nonmember_near (tickets l) t v0 h1 h3
  have hlen : (tickets l).length ≤ l.vals.length := by
    unfold tickets; split <;> simp [node_t.vals]
  obtain ⟨r, hr, hr1, hr2, hr3⟩ :=
    calls_least l (l.vals.length + 1) t v1 a1 (by omega) a3 (by omega)
  exact ⟨r, hr, hr1, hr3 v0 h1 h3, hr2, hr3⟩

theorem is_locked_iff (filp : file) :
    is_locked filp = true ↔ filp.f_flags.testBit 19 = true := by
  have hF : F_OSPRD_LOCKED = 2 ^ 19 := by decide
  unfold is_locked
  rw [hF, beq_iff_eq]
  constructor
  · intro h
    rw [h, Nat.testBit_or, Nat.testBit_two_pow_self, Bool.or_true]
  · intro h
    apply Nat.eq_of_testBit_eq
    intro i
    rw [Nat.testBit_or, Nat.testBit_two_pow]
    by_cases hi : 19 = i
    · subst hi; simp [h]
    · simp [hi]

theorem is_locked_clear (filp : file) :
    is_locked { filp with f_flags := filp.f_flags &&& NOT_F_OSPRD_LOCKED } = false := by
  rw [← Bool.not_eq_true, is_locked_iff]
  have hN : NOT_F_OSPRD_LOCKED.testBit 19 = false := by decide
  simp only [Nat.testBit_and, hN, Bool.and_false]
  simp

theorem incr_of_lt (x : Nat) (h : x < NIL) : incr x = x + 1 := by
  unfold incr
  apply Nat.mod_eq_of_lt
  unfold NIL at h
  unfold U32
  omega

/-! ## Postcondition of a grant -/

theorem set_same {α : Type} (l : List α) (i : Nat) (a : α) (h : l[i]? = some a) :
    l.set i a = l := by
  induction l generalizing i with
  | nil => rfl
  | cons x xs ih =>
    cases i with
    | zero => simp at h; simp [h]
    | succ i => simp at h; simp [ih i h]

theorem close_eq_release (d : osprd_info) (filp : file) (pid : Nat) :
    (osprd_close_last d filp pid).d = (osprd_ioctl_release d filp pid).d ∧
      (osprd_close_last d filp pid).filp = (osprd_ioctl_release d filp pid).filp := by
  unfold osprd_close_last osprd_ioctl_release
  split <;> exact ⟨rfl, rfl⟩

theorem rvt_bound (l : node_t) (tail bound : Nat) (h1 : tail < bound) (h2 : bound ≤ NIL)
    (h3 : ∀ v ∈ tickets l, v < bound) :
    ∃ t, return_valid_ticket l (incr tail) = some t ∧ tail < t ∧ t ≤ bound := by
  have hinc : incr tail = tail + 1 := incr_of_lt _ (by omega)
  have hb : bound ∉ tickets l := fun h => Nat.lt_irrefl _ (h3 _ h)
  have hU : bound < U32 := by unfold NIL at h2; unfold U32; omega
  obtain ⟨t, ht, ht1, ht2, _, _⟩ := return_valid_ticket_least l (tail + 1) bound h1 hU hb
  exact ⟨t, by rw [hinc, ht], by omega, ht2⟩

theorem tickets_add (l : node_t) (t : Nat) (h : t ≠ NIL) :
    tickets (add_to_ticket_list l t) = tickets l ++ [t] := by
  unfold add_to_ticket_list tickets node_t.vals
  by_cases hl : l.val = NIL
  · simp [hl, h]
  · simp [hl]

/-! ## Fairness -/

/-- C2: evaluation of the code on `skip_trace`.  Process 2 blocks with ticket
1 and process 3 with ticket 2 behind a writer; the failing try-acquire of
process 4 moves `ticket_tail` from 1 to 2; after the writer releases, ticket 2
is granted while process 2, holding ticket 1, is still blocked and was never
interrupted. -/
theorem tryacquire_skips_live_waiter :
    run (sys_setup fairness_files) (skip_trace.take 4) =
        some { d := { writer_and_waiter with ticket_head := 3 },
               files := [{ f_flags := 0x81002, f_mode := 3 }, read_handle, read_handle,
                         read_handle],
               waiting := [⟨2, 1, 1⟩, ⟨3, 2, 2⟩] } ∧
      (run (sys_setup fairness_files) (skip_trace.take 5)).map (fun s => s.d.ticket_tail) =
        some 2 ∧
      (run (sys_setup fairness_files) (skip_trace.take 5)).map (fun s => s.waiting) =
        some [⟨2, 1, 1⟩, ⟨3, 2, 2⟩] ∧
      run (sys_setup fairness_files) skip_trace = some skip_state ∧
      grant_log (sys_setup fairness_files) skip_trace = [0, 2] ∧
      skip_state.waiting = [⟨2, 1, 1⟩] ∧
      no_wrap (sys_setup fairness_files) skip_trace = true := by
  decide

/-! ## Grant, release and the error returns -/

/-- C5: evaluation of the code where two processes hold the read lock
(`two_readers` is reached by two grants) and process 1, whose pid is in the
head node of the reader list, releases through its locked handle: the call
returns 0, clears the flag and takes 1 from `nread`, but the reader list is
unchanged and still holds pid 1. -/
theorem release_leaves_head_holder :
    (run (sys_setup [read_handle, read_handle])
        [.acquire 1 0, .grant 0, .acquire 2 1, .grant 0]).map (fun s => (s.d, s.files)) =
      some (two_readers, [locked_read_handle, locked_read_handle]) ∧
    is_locked locked_read_handle = true ∧
    1 ∈ holders two_readers.read_locking_pids ∧
    (osprd_ioctl_release two_readers locked_read_handle 1).r = 0 ∧
    is_locked (osprd_ioctl_release two_readers locked_read_handle 1).filp = false ∧
    (osprd_ioctl_release two_readers locked_read_handle 1).d.nread = 1 ∧
    (osprd_ioctl_release two_readers locked_read_handle 1).d.read_locking_pids =
      two_readers.read_locking_pids ∧
    1 ∈ holders (osprd_ioctl_release two_readers locked_read_handle 1).d.read_locking_pids := by
  decide

/-- C6: release through a handle whose locked flag is not set returns
`-EINVAL` and leaves the device (counts, holder lists, ticket counters,
invalid tickets) and the handle unchanged. -/
theorem release_not_held (d : osprd_info) (filp : file) (pid : Nat)
    (h : is_locked filp = false) :
    (osprd_ioctl_release d filp pid).r = -EINVAL ∧ (osprd_ioctl_release d filp pid).d = d ∧
      (osprd_ioctl_release d filp pid).filp = filp := by
  unfold osprd_ioctl_release
  rw [if_neg (by simp [h])]
  exact ⟨rfl, rfl, rfl⟩

/-- C6 witness: the theorem applied to an unlocked read-only handle while two
other processes hold the read lock. -/
theorem release_not_held_witness :
    is_locked read_handle = false ∧
      (osprd_ioctl_release two_readers read_handle 9).r = -EINVAL ∧
      (osprd_ioctl_release two_readers read_handle 9).d = two_readers ∧
      (osprd_ioctl_release two_readers read_handle 9).filp = read_handle :=
  ⟨by decide, release_not_held two_readers read_handle 9 (by decide)⟩

/-- C10: evaluation of the code where process 1 holds the write lock, process
2 is blocked with ticket 1 and a third caller takes ticket 2
(`ticket_tail = 1`, so `ticket_tail ≠ my_ticket`).  The failing try-acquire
moves `ticket_tail` to 2 and records nothing; the interrupted branch of the
blocking acquire, for the same ticket and state, leaves `ticket_tail` at 1 and
records ticket 2 in `invalid_tickets`. -/
theorem tryacquire_failure_differs :
    (run (sys_setup [write_handle, read_handle])
        [.acquire 1 0, .grant 0, .acquire 2 1]).map (fun s => s.d) = some writer_and_waiter ∧
    wait_condition (filp_writable read_handle)
      { writer_and_waiter with ticket_head := 3 } 2 = false ∧
    (osprd_ioctl_tryacquire writer_and_waiter read_handle 3).map
        (fun res => (res.r, res.d.ticket_tail, res.d.invalid_tickets)) =
      some (-EBUSY, 2, ⟨NIL, []⟩) ∧
    (acquire_interrupted { writer_and_waiter with ticket_head := 3 } read_handle 2).map
        (fun res => (res.r, res.d.ticket_tail, res.d.invalid_tickets)) =
      some (-ERESTARTSYS, 1, ⟨2, []⟩) := by
  decide

/-! ## Termination of the cursor search -/

theorem calls_none_mem (l : node_t) :
    ∀ (f t : Nat), t < U32 → return_valid_ticket_calls f l t = none →
      ∀ i, i < f → (t + i) % U32 ∈ l.vals := by
  intro f
  induction f with
  | zero => intro t _ _ i hi; omega
  | succ f ih =>
    intro t ht h i hi
    unfold return_valid_ticket_calls at h
    split at h
    · cases h
    split at h
    swap
    · cases h
    rename_i hmem
    cases i with
    | zero =>
      rw [Nat.add_zero, Nat.mod_eq_of_lt ht]
      exact hmem
    | succ i =>
      have := ih ((t + 1) % U32) (Nat.mod_lt _ (by unfold U32; omega)) h i (by omega)
      have he : ((t + 1) % U32 + i) % U32 = (t + (i + 1)) % U32 := by
        unfold U32; omega
      rw [he] at this
      exact this

/-- A list with fewer than `2^32` nodes makes `return_valid_ticket` return. -/
theorem return_valid_ticket_returns (l : node_t) (t : Nat) (ht : t < U32)
    (hl : l.vals.length < U32) : ∃ r, return_valid_ticket l t = some r := by
  cases h : return_valid_ticket l t with
  | some r => exact ⟨r, rfl⟩
  | none =>
    exfalso
    have hm := calls_none_mem l (l.vals.length + 1) t ht h
    have hnd : ((List.range (l.vals.length + 1)).map (fun i => (t + i) % U32)).Nodup := by
      apply List.Nodup.map_on _ (List.nodup_range _)
      intro x hx y hy hxy
      rw [List.mem_range] at hx hy
      unfold U32 at hxy hl
      omega
    have hsub : (List.range (l.vals.length + 1)).map (fun i => (t + i) % U32) ⊆ l.vals := by
      intro v hv
      rw [List.mem_map] at hv
      obtain ⟨i, hi, rfl⟩ := hv
      exact hm i (List.mem_range.mp hi)
    have := (List.subperm_of_subset hnd hsub).length_le
    simp at this

theorem incr_lt (x : Nat) : incr x < U32 := by
  unfold incr
  exact Nat.mod_lt _ (by unfold U32; omega)

/-! ## Interrupted wait and close -/

/-- C11: when the wait of a blocking acquire is interrupted, in either mode,
the call returns `-ERESTARTSYS` and `nread`, `nwrite`, both holder lists and
the handle (hence its locked flag) are unchanged.  The invalid-ticket list has
fewer than `2^32` nodes, which is what makes `return_valid_ticket` return. -/
theorem interrupted_grants_nothing (d : osprd_info) (filp : file) (my_ticket : Nat)
    (hl : d.invalid_tickets.vals.length < U32) :
    ∃ res, acquire_interrupted d filp my_ticket = some res ∧ res.r = -ERESTARTSYS ∧
      res.d.nread = d.nread ∧ res.d.nwrite = d.nwrite ∧
      res.d.read_locking_pids = d.read_locking_pids ∧
      res.d.write_locking_pids = d.write_locking_pids ∧ res.filp = filp := by
  unfold acquire_interrupted
  by_cases h : d.ticket_tail = my_ticket
  · obtain ⟨t, ht⟩ :=
      return_valid_ticket_returns d.invalid_tickets (incr d.ticket_tail) (incr_lt _) hl
    rw [if_pos h, ht]
    exact ⟨_, rfl, rfl, rfl, rfl, rfl, rfl, rfl⟩
  · rw [if_neg h]
    exact ⟨_, rfl, rfl, rfl, rfl, rfl, rfl, rfl⟩

/-- C11 witness: the theorem applied to the reader blocked with ticket 1
behind a writer, through a read-only handle. -/
theorem interrupted_grants_nothing_witness :
    ∃ res, acquire_interrupted writer_and_waiter read_handle 1 = some res ∧
      res.r = -ERESTARTSYS ∧
      res.d.nread = writer_and_waiter.nread ∧ res.d.nwrite = writer_and_waiter.nwrite ∧
      res.d.read_locking_pids = writer_and_waiter.read_locking_pids ∧
      res.d.write_locking_pids = writer_and_waiter.write_locking_pids ∧
      res.filp = read_handle :=
  interrupted_grants_nothing writer_and_waiter read_handle 1 (by decide)

/-- C12: when a blocking acquire holding `my_ticket` is interrupted and no
32-bit wrap-around occurs (some 32-bit value above `my_ticket` is not an
invalid ticket): if `ticket_tail = my_ticket`, then `ticket_tail` becomes the
smallest value greater than `my_ticket` that is not in `invalid_tickets`, so
it equals the ticket of the waiter holding the next ticket that is not
invalid, and `invalid_tickets` is unchanged; otherwise `ticket_tail` is
unchanged and `my_ticket` becomes a member of `invalid_tickets`. -/
theorem interrupted_cursor (d : osprd_info) (filp : file) (my_ticket v0 : Nat)
    (hv : my_ticket < v0) (hv2 : v0 < U32) (hv3 : v0 ∉ tickets d.invalid_tickets) :
    ∃ res, acquire_interrupted d filp my_ticket = some res ∧
      interrupted_post d my_ticket res := by
  unfold interrupted_post
  unfold acquire_interrupted
  by_cases h : d.ticket_tail = my_ticket
  · have hinc : incr d.ticket_tail = my_ticket + 1 := by
      rw [h]; apply incr_of_lt; unfold NIL; unfold U32 at hv2; omega
    obtain ⟨t, ht, ht1, _, ht3, ht4⟩ :=
      return_valid_ticket_least d.invalid_tickets (my_ticket + 1) v0 hv hv2 hv3
    rw [if_pos h, hinc, ht]
    refine ⟨_, rfl, fun _ => ⟨ht1, ht3, fun v h1 h2 => ht4 v h1 h2, ?_, rfl⟩,
      fun hne => absurd h hne⟩
    intro w hw1 hw2 hw3
    have h1 : t ≤ w := ht4 w hw1 hw2
    show t = w
    by_contra hne
    exact ht3 (hw3 t ht1 (by omega))
  · rw [if_neg h]
    refine ⟨_, rfl, fun he => absurd he h, fun _ => ⟨rfl, ?_⟩⟩
    show my_ticket ∈ tickets (add_to_ticket_list d.invalid_tickets my_ticket)
    rw [tickets_add _ _ (by unfold NIL; unfold U32 at hv2; omega)]
    simp

/-- C12 witness: the theorem applied in `writer_and_gap`, once to the waiter
holding ticket 1 (the cursor) and once to the waiter holding ticket 3. -/
theorem interrupted_cursor_witness :
    (∃ res, acquire_interrupted writer_and_gap read_handle 1 = some res ∧
      interrupted_post writer_and_gap 1 res) ∧
    (∃ res, acquire_interrupted writer_and_gap read_handle 3 = some res ∧
      interrupted_post writer_and_gap 3 res) :=
  ⟨interrupted_cursor writer_and_gap read_handle 1 3 (by decide) (by decide) (by decide),
   interrupted_cursor writer_and_gap read_handle 3 4 (by decide) (by decide) (by decide)⟩

/-- C13: `osprd_close_last` returns 0; on a handle whose locked flag is set it
leaves exactly the device state and handle that `OSPRDIOCRELEASE` leaves (and
wakes the waiters as release does, release returning 0 as well); on a handle
whose locked flag is not set it leaves the device and the handle unchanged. -/
theorem close_is_release (d : osprd_info) (filp : file) (pid : Nat) :
    (osprd_close_last d filp pid).r = 0 ∧
    (is_locked filp = true →
      (osprd_close_last d filp pid).d = (osprd_ioctl_release d filp pid).d ∧
      (osprd_close_last d filp pid).filp = (osprd_ioctl_release d filp pid).filp ∧
      (osprd_close_last d filp pid).woke = (osprd_ioctl_release d filp pid).woke ∧
      (osprd_ioctl_release d filp pid).r = 0) ∧
    (is_locked filp = false →
      (osprd_close_last d filp pid).d = d ∧ (osprd_close_last d filp pid).filp = filp) := by
  unfold osprd_close_last osprd_ioctl_release
  by_cases h : is_locked filp = true
  · rw [if_pos h, if_pos h]
    exact ⟨rfl, fun _ => ⟨rfl, rfl, rfl, rfl⟩, fun hf => by rw [h] at hf; cases hf⟩
  · rw [if_neg h, if_neg h]
    exact ⟨rfl, fun ht => absurd ht h, fun _ => ⟨rfl, rfl⟩⟩

/-- C13 witness: the theorem applied to the locked handle of process 1 while
two processes hold the read lock, and to an unlocked handle. -/
theorem close_is_release_witness :
    ((osprd_close_last two_readers locked_read_handle 1).d =
        (osprd_ioctl_release two_readers locked_read_handle 1).d ∧
      (osprd_close_last two_readers locked_read_handle 1).filp =
        (osprd_ioctl_release two_readers locked_read_handle 1).filp ∧
      (osprd_close_last two_readers locked_read_handle 1).woke =
        (osprd_ioctl_release two_readers locked_read_handle 1).woke ∧
      (osprd_ioctl_release two_readers locked_read_handle 1).r = 0) ∧
    ((osprd_close_last two_readers read_handle 9).d = two_readers ∧
      (osprd_close_last two_readers read_handle 9).filp = read_handle) :=
  ⟨(close_is_release two_readers locked_read_handle 1).2.1 (by decide),
   (close_is_release two_readers read_handle 9).2.2 (by decide)⟩

/-! ## The writer-then-two-readers scenario -/

/-- C14: evaluation of the scenario.  Caller 1 is granted first; while it
holds the lock neither wait can return 0; after its release callers 2 and 3
are granted and `nread = 2`, `nwrite = 0`.  When caller 3 releases before
caller 2 the device is back in the all-zero state.  When caller 2 releases
before caller 3 both counts are 0 but the reader list still holds pid 2. -/
theorem scenario_release_order :
    run (sys_setup scenario_files) scenario_start = some scenario_held ∧
    step scenario_held (.grant 0) = none ∧
    step scenario_held (.grant 1) = none ∧
    grant_log (sys_setup scenario_files) scenario_granted = [0, 1, 2] ∧
    (run (sys_setup scenario_files) scenario_granted).map
        (fun s => (s.d.nread, s.d.nwrite, s.d.read_locking_pids)) =
      some (2, 0, ⟨2, [3]⟩) ∧
    (run (sys_setup scenario_files) (scenario_granted ++ [.release 3 2, .release 2 1])).map
        (fun s => (s.d.nread, s.d.nwrite, s.d.read_locking_pids, s.d.write_locking_pids)) =
      some (0, 0, ⟨NIL, []⟩, ⟨NIL, []⟩) ∧
    (run (sys_setup scenario_files) (scenario_granted ++ [.release 2 1, .release 3 2])).map
        (fun s => (s.d.nread, s.d.nwrite, s.d.read_locking_pids, s.d.write_locking_pids)) =
      some (0, 0, ⟨2, []⟩, ⟨NIL, []⟩) ∧
    holders (⟨2, []⟩ : node_t) = [2] := by
  decide

/-! ## What one event does -/

theorem grant_lock_elim (d : osprd_info) (filp : file) (pid : Nat) (uninit : List Nat)
    (res : result) (h : grant_lock d filp pid uninit = some res) :
    ∃ t, return_valid_ticket d.invalid_tickets (incr d.ticket_tail) = some t ∧
      res = (if filp_writable filp then
        { r := 0,
          d := { d with write_locking_pids := add_to_pid_list d.write_locking_pids pid uninit,
                        nwrite := incr d.nwrite, ticket_tail := t },
          filp := { filp with f_flags := filp.f_flags ||| F_OSPRD_LOCKED }, woke := false }
      else
        { r := 0,
          d := { d with read_locking_pids := add_to_pid_list d.read_locking_pids pid uninit,
                        nread := incr d.nread, ticket_tail := t },
          filp := { filp with f_flags := filp.f_flags ||| F_OSPRD_LOCKED }, woke := false }) := by
  unfold grant_lock at h
  cases hrv : return_valid_ticket d.invalid_tickets (incr d.ticket_tail) with
  | none => simp [hrv] at h
  | some t =>
    refine ⟨t, rfl, ?_⟩
    by_cases hw : filp_writable filp = true
    · simp only [hrv, hw, if_true, Option.map_some', Option.some.injEq] at h
      rw [if_pos hw]
      exact h.symm
    · simp only [hrv, hw, Bool.false_eq_true, if_false, Option.map_some',
        Option.some.injEq] at h
      rw [if_neg hw]
      exact h.symm

theorem interrupted_elim (d : osprd_info) (filp : file) (my_ticket : Nat) (res : result)
    (h : acquire_interrupted d filp my_ticket = some res) :
    (d.ticket_tail = my_ticket ∧
      ∃ t, return_valid_ticket d.invalid_tickets (incr d.ticket_tail) = some t ∧
        res = { r := -ERESTARTSYS, d := { d with ticket_tail := t }, filp := filp,
                woke := true }) ∨
    (d.ticket_tail ≠ my_ticket ∧
      res = { r := -ERESTARTSYS,
              d := { d with invalid_tickets := add_to_ticket_list d.invalid_tickets my_ticket },
              filp := filp, woke := false }) := by
  unfold acquire_interrupted at h
  by_cases ht : d.ticket_tail = my_ticket
  · rw [if_pos ht] at h
    cases hrv : return_valid_ticket d.invalid_tickets (incr d.ticket_tail) with
    | none => simp [hrv] at h
    | some t =>
      simp only [hrv, Option.map_some', Option.some.injEq] at h
      exact Or.inl ⟨ht, t, rfl, h.symm⟩
  · rw [if_neg ht] at h
    simp only [Option.some.injEq] at h
    exact Or.inr ⟨ht, h.symm⟩

theorem tryacquire_elim (d : osprd_info) (filp : file) (pid : Nat) (uninit : List Nat)
    (res : result) (h : osprd_ioctl_tryacquire d filp pid uninit = some res) :
    (wait_condition (filp_writable filp) { d with ticket_head := incr d.ticket_head }
        d.ticket_head = true ∧
      grant_lock { d with ticket_head := incr d.ticket_head } filp pid uninit = some res) ∨
    (wait_condition (filp_writable filp) { d with ticket_head := incr d.ticket_head }
        d.ticket_head = false ∧
      ∃ t, return_valid_ticket d.invalid_tickets (incr d.ticket_tail) = some t ∧
        res = { r := -EBUSY,
                d := { d with ticket_head := incr d.ticket_head, ticket_tail := t },
                filp := filp, woke := false }) := by
  unfold osprd_ioctl_tryacquire tryacquire_ticket tryacquire_failed at h
  dsimp only at h
  by_cases hc : wait_condition (filp_writable filp)
      { d with ticket_head := incr d.ticket_head } d.ticket_head = true
  · rw [if_pos hc] at h
    exact Or.inl ⟨hc, h⟩
  · rw [if_neg hc] at h
    cases hrv : return_valid_ticket d.invalid_tickets (incr d.ticket_tail) with
    | none => simp [hrv] at h
    | some t =>
      simp only [hrv, Option.map_some', Option.some.injEq] at h
      exact Or.inr ⟨by simpa using hc, t, rfl, h.symm⟩

theorem acquire_ticket_ok (d d1 : osprd_info) (pid t : Nat)
    (h : acquire_ticket d pid = .ok (t, d1)) :
    t = d.ticket_head ∧ d1 = { d with ticket_head := incr d.ticket_head } := by
  unfold acquire_ticket at h
  split at h
  · cases h
  · injection h with h
    injection h with h1 h2
    exact ⟨h1.symm, h2.symm⟩

theorem step_acquire_elim (s s1 : sys) (pid fd : Nat)
    (hs : step s (.acquire pid fd) = some s1) :
    s1 = s ∨
      s1 = { s with d := { s.d with ticket_head := incr s.d.ticket_head },
                    waiting := s.waiting ++ [waiter.mk pid fd s.d.ticket_head] } := by
  simp only [step] at hs
  split at hs
  · cases hs
  split at hs
  · cases hs
  split at hs
  · cases hs
    exact Or.inl rfl
  · rename_i t d1 heq
    obtain ⟨ht, hd1⟩ := acquire_ticket_ok _ _ _ _ heq
    cases hs
    subst hd1 ht
    exact Or.inr rfl

theorem step_grant_elim (s s1 : sys) (i : Nat) (uninit : List Nat)
    (hs : step s (.grant i uninit) = some s1) :
    ∃ w filp res, s.waiting[i]? = some w ∧ s.files[w.fd]? = some filp ∧
      wait_condition (filp_writable filp) s.d w.ticket = true ∧
      grant_lock s.d filp w.pid uninit = some res ∧
      s1 = { s with d := res.d, files := s.files.set w.fd res.filp,
                    waiting := s.waiting.eraseIdx i } := by
  simp only [step] at hs
  split at hs
  · cases hs
  rename_i w hw
  split at hs
  · cases hs
  rename_i filp hf
  split at hs
  swap
  · cases hs
  rename_i hc
  cases hg : grant_lock s.d filp w.pid uninit with
  | none => simp [hg] at hs
  | some res =>
    simp only [hg, Option.map_some', Option.some.injEq] at hs
    exact ⟨w, filp, res, hw, hf, hc, hg, hs.symm⟩

theorem step_interrupt_elim (s s1 : sys) (i : Nat) (hs : step s (.interrupt i) = some s1) :
    ∃ w filp res, s.waiting[i]? = some w ∧ s.files[w.fd]? = some filp ∧
      wait_condition (filp_writable filp) s.d w.ticket = false ∧
      acquire_interrupted s.d filp w.ticket = some res ∧
      s1 = { s with d := res.d, files := s.files.set w.fd res.filp,
                    waiting := s.waiting.eraseIdx i } := by
  simp only [step] at hs
  split at hs
  · cases hs
  rename_i w hw
  split at hs
  · cases hs
  rename_i filp hf
  split at hs
  · cases hs
  rename_i hc
  cases hg : acquire_interrupted s.d filp w.ticket with
  | none => simp [hg] at hs
  | some res =>
    simp only [hg, Option.map_some', Option.some.injEq] at hs
    exact ⟨w, filp, res, hw, hf, by simpa using hc, hg, hs.symm⟩

theorem step_tryacquire_elim (s s1 : sys) (pid fd : Nat) (uninit : List Nat)
    (hs : step s (.tryacquire pid fd uninit) = some s1) :
    ∃ filp res, s.files[fd]? = some filp ∧
      osprd_ioctl_tryacquire s.d filp pid uninit = some res ∧
      s1 = { s with d := res.d, files := s.files.set fd res.filp } := by
  simp only [step] at hs
  split at hs
  · cases hs
  split at hs
  · cases hs
  rename_i filp hf
  cases hg : osprd_ioctl_tryacquire s.d filp pid uninit with
  | none => simp [hg] at hs
  | some res =>
    simp only [hg, Option.map_some', Option.some.injEq] at hs
    exact ⟨filp, res, hf, hg, hs.symm⟩

theorem step_release_elim (s s1 : sys) (pid fd : Nat)
    (hs : step s (.release pid fd) = some s1) :
    ∃ filp, s.files[fd]? = some filp ∧
      s1 = { s with d := (osprd_ioctl_release s.d filp pid).d,
                    files := s.files.set fd (osprd_ioctl_release s.d filp pid).filp } := by
  simp only [step] at hs
  split at hs
  · cases hs
  split at hs
  · cases hs
  rename_i filp hf
  simp only [Option.some.injEq] at hs
  exact ⟨filp, hf, hs.symm⟩

theorem step_close_elim (s s1 : sys) (pid fd : Nat)
    (hs : step s (.close pid fd) = some s1) :
    ∃ filp, s.files[fd]? = some filp ∧
      s1 = { s with d := (osprd_ioctl_release s.d filp pid).d,
                    files := s.files.set fd (osprd_ioctl_release s.d filp pid).filp } := by
  simp only [step] at hs
  split at hs
  · cases hs
  split at hs
  · cases hs
  rename_i filp hf
  simp only [Option.some.injEq] at hs
  obtain ⟨e1, e2⟩ := close_eq_release s.d filp pid
  rw [e1, e2] at hs
  exact ⟨filp, hf, hs.symm⟩

theorem release_fields (d : osprd_info) (filp : file) (pid : Nat) :
    (osprd_ioctl_release d filp pid).d.ticket_tail = d.ticket_tail ∧
      (osprd_ioctl_release d filp pid).d.invalid_tickets = d.invalid_tickets ∧
      (osprd_ioctl_release d filp pid).d.ticket_head = d.ticket_head := by
  unfold osprd_ioctl_release
  by_cases hl : is_locked filp = true
  · rw [if_pos hl]
    dsimp only
    unfold drop_lock
    by_cases hw : filp_writable filp = true
    · rw [if_pos hw]
      exact ⟨rfl, rfl, rfl⟩
    · rw [if_neg hw]
      exact ⟨rfl, rfl, rfl⟩
  · rw [if_neg hl]
    exact ⟨rfl, rfl, rfl⟩

theorem step_wait_ok_elim (s s1 : sys) (i : Nat) (hs : step s (.wait_ok i) = some s1) :
    ∃ w filp, s.waiting[i]? = some w ∧ s.files[w.fd]? = some filp ∧
      wait_condition (filp_writable filp) s.d w.ticket = true ∧
      s1 = { s with waiting := s.waiting.eraseIdx i,
                    inflight := s.inflight ++ [pending.mk w.pid w.fd w.ticket .granting] } := by
  simp only [step] at hs
  split at hs
  · cases hs
  rename_i w hw
  split at hs
  · cases hs
  rename_i filp hf
  split at hs
  swap
  · cases hs
  rename_i hc
  simp only [Option.some.injEq] at hs
  exact ⟨w, filp, hw, hf, hc, hs.symm⟩

theorem step_wait_signal_elim (s s1 : sys) (i : Nat) (hs : step s (.wait_signal i) = some s1) :
    ∃ w filp, s.waiting[i]? = some w ∧ s.files[w.fd]? = some filp ∧
      wait_condition (filp_writable filp) s.d w.ticket = false ∧
      s1 = { s with waiting := s.waiting.eraseIdx i,
                    inflight := s.inflight ++ [pending.mk w.pid w.fd w.ticket .interrupted] } := by
  simp only [step] at hs
  split at hs
  · cases hs
  rename_i w hw
  split at hs
  · cases hs
  rename_i filp hf
  split at hs
  · cases hs
  rename_i hc
  simp only [Option.some.injEq] at hs
  exact ⟨w, filp, hw, hf, by simpa using hc, hs.symm⟩

theorem step_try_ticket_elim (s s1 : sys) (pid fd : Nat)
    (hs : step s (.try_ticket pid fd) = some s1) :
    s1 = { s with d := { s.d with ticket_head := incr s.d.ticket_head },
                  inflight := s.inflight ++ [pending.mk pid fd s.d.ticket_head .testing] } := by
  simp only [step] at hs
  split at hs
  · cases hs
  split at hs
  · cases hs
  simp only [Option.some.injEq] at hs
  exact hs.symm

theorem step_try_test_elim (s s1 : sys) (j : Nat) (hs : step s (.try_test j) = some s1) :
    ∃ p filp, s.inflight[j]? = some p ∧ s.files[p.fd]? = some filp ∧ p.ph = .testing ∧
      ((wait_condition (filp_writable filp) s.d p.ticket = true ∧
          s1 = { s with inflight := s.inflight.set j { p with ph := .granting } }) ∨
        (wait_condition (filp_writable filp) s.d p.ticket = false ∧
          s1 = { s with inflight := s.inflight.set j { p with ph := .failing } })) := by
  simp only [step] at hs
  split at hs
  · cases hs
  rename_i p hp
  split at hs
  · cases hs
  rename_i filp hf
  split at hs
  · rename_i hph
    split at hs
    · rename_i hc
      simp only [Option.some.injEq] at hs
      exact ⟨p, filp, hp, hf, hph, Or.inl ⟨hc, hs.symm⟩⟩
    · rename_i hc
      simp only [Option.some.injEq] at hs
      exact ⟨p, filp, hp, hf, hph, Or.inr ⟨by simpa using hc, hs.symm⟩⟩
  · cases hs

theorem finish_call_elim (d : osprd_info) (filp : file) (p : pending) (uninit : List Nat)
    (res : result) (h : finish_call d filp p uninit = some res) :
    (p.ph = .granting ∧ grant_lock d filp p.pid uninit = some res) ∨
    (p.ph = .interrupted ∧ acquire_interrupted d filp p.ticket = some res) ∨
    (p.ph = .failing ∧ tryacquire_failed d filp = some res) := by
  unfold finish_call at h
  split at h
  · cases h
  · rename_i hph; exact Or.inl ⟨hph, h⟩
  · rename_i hph; exact Or.inr (Or.inl ⟨hph, h⟩)
  · rename_i hph; exact Or.inr (Or.inr ⟨hph, h⟩)

theorem step_finish_elim (s s1 : sys) (j : Nat) (uninit : List Nat)
    (hs : step s (.finish j uninit) = some s1) :
    ∃ p filp res, s.inflight[j]? = some p ∧ s.files[p.fd]? = some filp ∧
      finish_call s.d filp p uninit = some res ∧
      s1 = { s with d := res.d, files := s.files.set p.fd res.filp,
                    inflight := s.inflight.eraseIdx j } := by
  simp only [step] at hs
  split at hs
  · cases hs
  rename_i p hp
  split at hs
  · cases hs
  rename_i filp hf
  cases hg : finish_call s.d filp p uninit with
  | none => simp [hg] at hs
  | some res =>
    simp only [hg, Option.map_some', Option.some.injEq] at hs
    exact ⟨p, filp, res, hp, hf, hg, hs.symm⟩

theorem grant_lock_tickets (d : osprd_info) (filp : file) (pid : Nat) (uninit : List Nat)
    (res : result) (h : grant_lock d filp pid uninit = some res) :
    res.d.ticket_head = d.ticket_head ∧ res.d.invalid_tickets = d.invalid_tickets ∧
      return_valid_ticket d.invalid_tickets (incr d.ticket_tail) = some res.d.ticket_tail := by
  obtain ⟨t, ht, hres⟩ := grant_lock_elim d filp pid uninit res h
  by_cases hw : filp_writable filp = true
  · rw [if_pos hw] at hres
    subst hres
    exact ⟨rfl, rfl, ht⟩
  · rw [if_neg hw] at hres
    subst hres
    exact ⟨rfl, rfl, ht⟩

theorem tryacquire_failed_tickets (d : osprd_info) (filp : file) (res : result)
    (h : tryacquire_failed d filp = some res) :
    res.d.ticket_head = d.ticket_head ∧ res.d.invalid_tickets = d.invalid_tickets ∧
      return_valid_ticket d.invalid_tickets (incr d.ticket_tail) = some res.d.ticket_tail := by
  unfold tryacquire_failed at h
  cases hrv : return_valid_ticket d.invalid_tickets (incr d.ticket_tail) with
  | none => simp [hrv] at h
  | some t =>
    simp only [hrv, Option.map_some', Option.some.injEq] at h
    subst h
    exact ⟨rfl, rfl, rfl⟩

theorem interrupted_tickets (d : osprd_info) (filp : file) (my_ticket : Nat) (res : result)
    (h : acquire_interrupted d filp my_ticket = some res) :
    res.d.ticket_head = d.ticket_head ∧
      ((res.d.invalid_tickets = d.invalid_tickets ∧
          return_valid_ticket d.invalid_tickets (incr d.ticket_tail) = some res.d.ticket_tail) ∨
        (my_ticket ≠ d.ticket_tail ∧ res.d.ticket_tail = d.ticket_tail ∧
          res.d.invalid_tickets = add_to_ticket_list d.invalid_tickets my_ticket)) := by
  rcases interrupted_elim d filp my_ticket res h with ⟨_, t, ht, hres⟩ | ⟨hne, hres⟩
  · subst hres
    exact ⟨rfl, Or.inl ⟨rfl, ht⟩⟩
  · subst hres
    exact ⟨rfl, Or.inr ⟨fun e => hne e.symm, rfl, rfl⟩⟩

theorem tryacquire_tickets (d : osprd_info) (filp : file) (pid : Nat) (uninit : List Nat)
    (res : result) (h : osprd_ioctl_tryacquire d filp pid uninit = some res) :
    res.d.ticket_head = incr d.ticket_head ∧ res.d.invalid_tickets = d.invalid_tickets ∧
      return_valid_ticket d.invalid_tickets (incr d.ticket_tail) = some res.d.ticket_tail := by
  rcases tryacquire_elim d filp pid uninit res h with ⟨_, hg⟩ | ⟨_, t, ht, hres⟩
  · obtain ⟨e1, e2, e3⟩ := grant_lock_tickets _ filp pid uninit res hg
    exact ⟨e1, e2, e3⟩
  · subst hres
    exact ⟨rfl, rfl, ht⟩

/-! ## Uninterrupted calls

The events `grant`, `interrupt` and `tryacquire` add no behaviour of their
own: each is a sequence of single steps of one process. -/

theorem getElem?_concat_last {α : Type} (l : List α) (a : α) :
    (l ++ [a])[l.length]? = some a := by
  simp

theorem eraseIdx_concat_last {α : Type} (l : List α) (a : α) :
    (l ++ [a]).eraseIdx l.length = l := by
  rw [List.eraseIdx_append_of_length_le (Nat.le_refl _)]
  simp

theorem set_concat_last {α : Type} (l : List α) (a b : α) :
    (l ++ [a]).set l.length b = l ++ [b] := by
  induction l with
  | nil => rfl
  | cons x xs ih => simp [ih]

/-- The event `grant i` is `wait_ok i` followed by `finish` of the call that
`wait_ok i` has just made pending. -/
theorem grant_eq_wait_ok_finish (s : sys) (i : Nat) (uninit : List Nat) :
    step s (.grant i uninit) =
      (step s (.wait_ok i)).bind fun s1 => step s1 (.finish s.inflight.length uninit) := by
  simp only [step]
  cases hw : s.waiting[i]? with
  | none => rfl
  | some w =>
    dsimp only
    cases hf : s.files[w.fd]? with
    | none => rfl
    | some filp =>
      dsimp only
      by_cases hc : wait_condition (filp_writable filp) s.d w.ticket = true
      · rw [if_pos hc, if_pos hc]
        simp only [Option.some_bind, step, getElem?_concat_last, hf, finish_call,
          eraseIdx_concat_last]
      · rw [if_neg hc, if_neg hc]
        rfl

/-- The event `interrupt i` is `wait_signal i` followed by `finish` of the call
that `wait_signal i` has just made pending. -/
theorem interrupt_eq_wait_signal_finish (s : sys) (i : Nat) :
    step s (.interrupt i) =
      (step s (.wait_signal i)).bind fun s1 => step s1 (.finish s.inflight.length) := by
  simp only [step]
  cases hw : s.waiting[i]? with
  | none => rfl
  | some w =>
    dsimp only
    cases hf : s.files[w.fd]? with
    | none => rfl
    | some filp =>
      dsimp only
      by_cases hc : wait_condition (filp_writable filp) s.d w.ticket = true
      · rw [if_pos hc, if_pos hc]
        rfl
      · rw [if_neg hc, if_neg hc]
        simp only [Option.some_bind, step, getElem?_concat_last, hf, finish_call,
          eraseIdx_concat_last]

/-- The event `tryacquire pid fd` is `try_ticket pid fd` followed by `try_test`
and `finish` of the call that `try_ticket` has just made pending. -/
theorem tryacquire_eq_ticket_test_finish (s : sys) (pid fd : Nat) (uninit : List Nat) :
    step s (.tryacquire pid fd uninit) =
      ((step s (.try_ticket pid fd)).bind fun s1 => step s1 (.try_test s.inflight.length)).bind
        fun s2 => step s2 (.finish s.inflight.length uninit) := by
  simp only [step]
  by_cases hb : is_blocked s pid = true
  · rw [if_pos hb, if_pos hb]
    rfl
  · rw [if_neg hb, if_neg hb]
    cases hf : s.files[fd]? with
    | none => rfl
    | some filp =>
      dsimp only
      simp only [Option.some_bind, step, getElem?_concat_last, hf]
      unfold osprd_ioctl_tryacquire
      dsimp only
      by_cases hc : wait_condition (filp_writable filp) (tryacquire_ticket s.d).2
          (tryacquire_ticket s.d).1 = true
      · rw [if_pos hc, if_pos hc]
        simp only [Option.some_bind, step, set_concat_last, getElem?_concat_last, hf,
          finish_call, eraseIdx_concat_last]
      · rw [if_neg hc, if_neg hc]
        simp only [Option.some_bind, step, set_concat_last, getElem?_concat_last, hf,
          finish_call, eraseIdx_concat_last]

/-! ## The ticket invariant

No lemma of this section uses the value of a wait condition: the invariant is
preserved whatever the tests of the callers return. -/

theorem countP_split (T : List Nat) (a b : Nat) (hab : a < b) :
    T.countP (fun v => decide (b < v)) + T.countP (fun v => decide (a < v ∧ v < b)) ≤
      T.countP (fun v => decide (a < v)) := by
  induction T with
  | nil => simp
  | cons x xs ih =>
    simp only [List.countP_cons, decide_eq_true_eq]
    split_ifs <;> omega

theorem countP_between (T : List Nat) (a b : Nat)
    (hmem : ∀ v, a < v → v < b → v ∈ T) :
    b - a - 1 ≤ T.countP (fun v => decide (a < v ∧ v < b)) := by
  have hsub : List.range' (a + 1) (b - a - 1) ⊆
      T.filter (fun v => decide (a < v ∧ v < b)) := by
    intro v hv
    rw [List.mem_range'_1] at hv
    rw [List.mem_filter, decide_eq_true_eq]
    exact ⟨hmem v (by omega) (by omega), by omega, by omega⟩
  have := (List.subperm_of_subset (List.nodup_range' (a + 1) (b - a - 1)) hsub).length_le
  rw [List.countP_eq_length_filter]
  simpa using this

theorem countP_advance (T : List Nat) (a b : Nat) (hab : a < b)
    (hmem : ∀ v, a < v → v < b → v ∈ T) :
    T.countP (fun v => decide (b < v)) + (b - a - 1) ≤ T.countP (fun v => decide (a < v)) := by
  have h1 := countP_split T a b hab
  have h2 := countP_between T a b hmem
  omega

theorem held_erase_waiting (W : List waiter) (I : List pending) (i : Nat) (w : waiter)
    (hw : W[i]? = some w) :
    ((W.eraseIdx i).map (fun w => w.ticket) ++ I.map (fun p => p.ticket)).length + 1 =
        (W.map (fun w => w.ticket) ++ I.map (fun p => p.ticket)).length ∧
      (∀ t ∈ (W.eraseIdx i).map (fun w => w.ticket) ++ I.map (fun p => p.ticket),
        t ∈ W.map (fun w => w.ticket) ++ I.map (fun p => p.ticket)) ∧
      w.ticket ∈ W.map (fun w => w.ticket) ++ I.map (fun p => p.ticket) := by
  have hi : i < W.length := (List.getElem?_eq_some.1 hw).1
  have hl := List.length_eraseIdx_add_one hi
  refine ⟨?_, ?_, ?_⟩
  · simp only [List.length_append, List.length_map]
    omega
  · intro t ht
    rw [List.mem_append] at ht ⊢
    rcases ht with ht | ht
    · refine Or.inl ?_
      rw [List.mem_map] at ht ⊢
      obtain ⟨x, hx, hxt⟩ := ht
      exact ⟨x, List.mem_of_mem_eraseIdx hx, hxt⟩
    · exact Or.inr ht
  · refine List.mem_append.2 (Or.inl ?_)
    rw [List.mem_map]
    exact ⟨w, List.getElem?_mem hw, rfl⟩

theorem held_erase_inflight (W : List waiter) (I : List pending) (j : Nat) (p : pending)
    (hp : I[j]? = some p) :
    (W.map (fun w => w.ticket) ++ (I.eraseIdx j).map (fun p => p.ticket)).length + 1 =
        (W.map (fun w => w.ticket) ++ I.map (fun p => p.ticket)).length ∧
      (∀ t ∈ W.map (fun w => w.ticket) ++ (I.eraseIdx j).map (fun p => p.ticket),
        t ∈ W.map (fun w => w.ticket) ++ I.map (fun p => p.ticket)) ∧
      p.ticket ∈ W.map (fun w => w.ticket) ++ I.map (fun p => p.ticket) := by
  have hi : j < I.length := (List.getElem?_eq_some.1 hp).1
  have hl := List.length_eraseIdx_add_one hi
  refine ⟨?_, ?_, ?_⟩
  · simp only [List.length_append, List.length_map]
    omega
  · intro t ht
    rw [List.mem_append] at ht ⊢
    rcases ht with ht | ht
    · exact Or.inl ht
    · refine Or.inr ?_
      rw [List.mem_map] at ht ⊢
      obtain ⟨x, hx, hxt⟩ := ht
      exact ⟨x, List.mem_of_mem_eraseIdx hx, hxt⟩
  · refine List.mem_append.2 (Or.inr ?_)
    rw [List.mem_map]
    exact ⟨p, List.getElem?_mem hp, rfl⟩

theorem held_move (W : List waiter) (I : List pending) (i : Nat) (w : waiter) (p : pending)
    (hw : W[i]? = some w) (hp : p.ticket = w.ticket) :
    ((W.eraseIdx i).map (fun w => w.ticket) ++ (I ++ [p]).map (fun p => p.ticket)).length =
        (W.map (fun w => w.ticket) ++ I.map (fun p => p.ticket)).length ∧
      ∀ t ∈ (W.eraseIdx i).map (fun w => w.ticket) ++ (I ++ [p]).map (fun p => p.ticket),
        t ∈ W.map (fun w => w.ticket) ++ I.map (fun p => p.ticket) := by
  have hi : i < W.length := (List.getElem?_eq_some.1 hw).1
  have hl := List.length_eraseIdx_add_one hi
  refine ⟨?_, ?_⟩
  · simp only [List.length_append, List.length_map, List.length_singleton]
    omega
  · intro t ht
    simp only [List.mem_append, List.mem_map, List.mem_singleton] at ht ⊢
    rcases ht with ⟨x, hx, hxt⟩ | ⟨x, hx | hx, hxt⟩
    · exact Or.inl ⟨x, List.mem_of_mem_eraseIdx hx, hxt⟩
    · exact Or.inr ⟨x, hx, hxt⟩
    · subst hx
      exact Or.inl ⟨w, List.getElem?_mem hw, by rw [← hxt, hp]⟩

theorem held_set (I : List pending) (j : Nat) (p q : pending) (hp : I[j]? = some p)
    (hq : q.ticket = p.ticket) :
    (I.set j q).map (fun p => p.ticket) = I.map (fun p => p.ticket) := by
  rw [List.map_set]
  apply set_same
  rw [List.getElem?_map, hp, Option.map_some', hq]

/-- What one event does to the ticket counters, the invalid-ticket list and
the tickets of the calls in progress.  It leaves them alone; or it issues the
ticket `ticket_head`; or a call in progress returns and moves `ticket_tail` to
`return_valid_ticket(invalid_tickets, ticket_tail + 1)`; or a call in progress
returns and records its ticket, which is not `ticket_tail`, as invalid; or one
ticket is issued and `ticket_tail` is moved in the same event. -/
theorem step_shape (s s1 : sys) (o : op) (hs : step s o = some s1) :
    (s1.d.ticket_head = s.d.ticket_head ∧ s1.d.ticket_tail = s.d.ticket_tail ∧
      s1.d.invalid_tickets = s.d.invalid_tickets ∧
      (held_tickets s1).length = (held_tickets s).length ∧
      ∀ t ∈ held_tickets s1, t ∈ held_tickets s) ∨
    (s1.d.ticket_head = incr s.d.ticket_head ∧ s1.d.ticket_tail = s.d.ticket_tail ∧
      s1.d.invalid_tickets = s.d.invalid_tickets ∧
      (held_tickets s1).length = (held_tickets s).length + 1 ∧
      ∀ t ∈ held_tickets s1, t ∈ held_tickets s ∨ t = s.d.ticket_head) ∨
    (s1.d.ticket_head = s.d.ticket_head ∧
      return_valid_ticket s.d.invalid_tickets (incr s.d.ticket_tail) = some s1.d.ticket_tail ∧
      s1.d.invalid_tickets = s.d.invalid_tickets ∧
      (held_tickets s1).length + 1 = (held_tickets s).length ∧
      ∀ t ∈ held_tickets s1, t ∈ held_tickets s) ∨
    (s1.d.ticket_head = s.d.ticket_head ∧ s1.d.ticket_tail = s.d.ticket_tail ∧
      (∃ t ∈ held_tickets s, t ≠ s.d.ticket_tail ∧
        s1.d.invalid_tickets = add_to_ticket_list s.d.invalid_tickets t) ∧
      (held_tickets s1).length + 1 = (held_tickets s).length ∧
      ∀ t ∈ held_tickets s1, t ∈ held_tickets s) ∨
    (s1.d.ticket_head = incr s.d.ticket_head ∧
      return_valid_ticket s.d.invalid_tickets (incr s.d.ticket_tail) = some s1.d.ticket_tail ∧
      s1.d.invalid_tickets = s.d.invalid_tickets ∧
      held_tickets s1 = held_tickets s) := by
  cases o with
  | acquire pid fd =>
    rcases step_acquire_elim s s1 pid fd hs with h | h
    · subst h
      exact Or.inl ⟨rfl, rfl, rfl, rfl, fun _ h => h⟩
    · subst h
      refine Or.inr (Or.inl ⟨rfl, rfl, rfl, ?_, ?_⟩)
      · simp [held_tickets]
        omega
      · intro t ht
        simp only [held_tickets, List.map_append, List.mem_append, List.mem_map,
          List.mem_singleton] at ht ⊢
        rcases ht with (⟨x, hx, hxt⟩ | ⟨x, hx, hxt⟩) | ⟨x, hx, hxt⟩
        · exact Or.inl (Or.inl ⟨x, hx, hxt⟩)
        · subst hx
          exact Or.inr hxt.symm
        · exact Or.inl (Or.inr ⟨x, hx, hxt⟩)
  | grant i uninit =>
    obtain ⟨w, filp, res, hw, _, _, hg, h1⟩ := step_grant_elim s s1 i uninit hs
    obtain ⟨e1, e2, e3⟩ := grant_lock_tickets _ _ _ _ _ hg
    obtain ⟨l1, l2, _⟩ := held_erase_waiting s.waiting s.inflight i w hw
    subst h1
    exact Or.inr (Or.inr (Or.inl ⟨e1, e3, e2, l1, l2⟩))
  | interrupt i =>
    obtain ⟨w, filp, res, hw, _, _, hg, h1⟩ := step_interrupt_elim s s1 i hs
    obtain ⟨e1, e2⟩ := interrupted_tickets _ _ _ _ hg
    obtain ⟨l1, l2, l3⟩ := held_erase_waiting s.waiting s.inflight i w hw
    subst h1
    rcases e2 with ⟨e2, e3⟩ | ⟨e2, e3, e4⟩
    · exact Or.inr (Or.inr (Or.inl ⟨e1, e3, e2, l1, l2⟩))
    · exact Or.inr (Or.inr (Or.inr (Or.inl ⟨e1, e3, ⟨w.ticket, l3, e2, e4⟩, l1, l2⟩)))
  | tryacquire pid fd uninit =>
    obtain ⟨filp, res, _, hg, h1⟩ := step_tryacquire_elim s s1 pid fd uninit hs
    obtain ⟨e1, e2, e3⟩ := tryacquire_tickets _ _ _ _ _ hg
    subst h1
    exact Or.inr (Or.inr (Or.inr (Or.inr ⟨e1, e3, e2, rfl⟩)))
  | release pid fd =>
    obtain ⟨filp, _, h1⟩ := step_release_elim s s1 pid fd hs
    subst h1
    obtain ⟨e1, e2, e3⟩ := release_fields s.d filp pid
    exact Or.inl ⟨e3, e1, e2, rfl, fun _ h => h⟩
  | close pid fd =>
    obtain ⟨filp, _, h1⟩ := step_close_elim s s1 pid fd hs
    subst h1
    obtain ⟨e1, e2, e3⟩ := release_fields s.d filp pid
    exact Or.inl ⟨e3, e1, e2, rfl, fun _ h => h⟩
  | wait_ok i =>
    obtain ⟨w, filp, hw, _, _, h1⟩ := step_wait_ok_elim s s1 i hs
    obtain ⟨l1, l2⟩ := held_move s.waiting s.inflight i w
      (pending.mk w.pid w.fd w.ticket .granting) hw rfl
    subst h1
    exact Or.inl ⟨rfl, rfl, rfl, l1, l2⟩
  | wait_signal i =>
    obtain ⟨w, filp, hw, _, _, h1⟩ := step_wait_signal_elim s s1 i hs
    obtain ⟨l1, l2⟩ := held_move s.waiting s.inflight i w
      (pending.mk w.pid w.fd w.ticket .interrupted) hw rfl
    subst h1
    exact Or.inl ⟨rfl, rfl, rfl, l1, l2⟩
  | try_ticket pid fd =>
    have h1 := step_try_ticket_elim s s1 pid fd hs
    subst h1
    refine Or.inr (Or.inl ⟨rfl, rfl, rfl, ?_, ?_⟩)
    · simp [held_tickets]
      omega
    · intro t ht
      simp only [held_tickets, List.map_append, List.mem_append, List.mem_map,
        List.mem_singleton] at ht ⊢
      rcases ht with ⟨x, hx, hxt⟩ | ⟨x, hx, hxt⟩ | ⟨x, hx, hxt⟩
      · exact Or.inl (Or.inl ⟨x, hx, hxt⟩)
      · exact Or.inl (Or.inr ⟨x, hx, hxt⟩)
      · subst hx
        exact Or.inr hxt.symm
  | try_test j =>
    obtain ⟨p, filp, hp, _, _, h1⟩ := step_try_test_elim s s1 j hs
    rcases h1 with ⟨_, h1⟩ | ⟨_, h1⟩
    · have e := held_set s.inflight j p { p with ph := .granting } hp rfl
      subst h1
      refine Or.inl ⟨rfl, rfl, rfl, ?_, ?_⟩
      · simp only [held_tickets, e]
      · intro t ht
        simpa only [held_tickets, e] using ht
    · have e := held_set s.inflight j p { p with ph := .failing } hp rfl
      subst h1
      refine Or.inl ⟨rfl, rfl, rfl, ?_, ?_⟩
      · simp only [held_tickets, e]
      · intro t ht
        simpa only [held_tickets, e] using ht
  | finish j uninit =>
    obtain ⟨p, filp, res, hp, _, hg, h1⟩ := step_finish_elim s s1 j uninit hs
    obtain ⟨l1, l2, l3⟩ := held_erase_inflight s.waiting s.inflight j p hp
    subst h1
    rcases finish_call_elim _ _ _ _ _ hg with ⟨_, hg⟩ | ⟨_, hg⟩ | ⟨_, hg⟩
    · obtain ⟨e1, e2, e3⟩ := grant_lock_tickets _ _ _ _ _ hg
      exact Or.inr (Or.inr (Or.inl ⟨e1, e3, e2, l1, l2⟩))
    · obtain ⟨e1, e2⟩ := interrupted_tickets _ _ _ _ hg
      rcases e2 with ⟨e2, e3⟩ | ⟨e2, e3, e4⟩
      · exact Or.inr (Or.inr (Or.inl ⟨e1, e3, e2, l1, l2⟩))
      · exact Or.inr (Or.inr (Or.inr (Or.inl ⟨e1, e3, ⟨p.ticket, l3, e2, e4⟩, l1, l2⟩)))
    · obtain ⟨e1, e2, e3⟩ := tryacquire_failed_tickets _ _ _ hg
      exact Or.inr (Or.inr (Or.inl ⟨e1, e3, e2, l1, l2⟩))

/-- The value that `return_valid_ticket(invalid_tickets, ticket_tail + 1)`
returns in a state of the invariant: it is above `ticket_tail`, it is not an
invalid ticket, and every value skipped on the way is an invalid ticket above
`ticket_tail` that is no longer above the new value. -/
theorem advance_facts (s : sys) (r : Nat) (hI : ticket_inv s) (hh : s.d.ticket_head < NIL)
    (hr : return_valid_ticket s.d.invalid_tickets (incr s.d.ticket_tail) = some r) :
    s.d.ticket_tail < r ∧ r ≤ s.d.ticket_head + 1 ∧ r ∉ tickets s.d.invalid_tickets ∧
      (tickets s.d.invalid_tickets).countP (fun v => decide (r < v)) +
        (r - s.d.ticket_tail - 1) ≤ invalid_ahead s.d := by
  have hb := hI.budget
  have hinc : incr s.d.ticket_tail = s.d.ticket_tail + 1 := incr_of_lt _ (by omega)
  have hU : s.d.ticket_head + 1 < U32 := by unfold NIL at hh; unfold U32; omega
  have hn : s.d.ticket_head + 1 ∉ tickets s.d.invalid_tickets := fun h => by
    have := hI.invalid_lt _ h
    omega
  obtain ⟨r1, h1, h2, h3, h4, h5⟩ := return_valid_ticket_least s.d.invalid_tickets
    (s.d.ticket_tail + 1) (s.d.ticket_head + 1) (by omega) hU hn
  rw [hinc, h1] at hr
  injection hr with hr
  subst hr
  refine ⟨by omega, h3, h4, ?_⟩
  unfold invalid_ahead
  apply countP_advance _ _ _ (by omega)
  intro v hv1 hv2
  by_contra hv
  have := h5 v (by omega) hv
  omega

/-- Every event that starts with `ticket_head` below its largest value
preserves the invariant, and leaves `ticket_tail` unchanged or moves it to a
greater value that is not an invalid ticket. -/
theorem ticket_inv_step (s s1 : sys) (o : op) (hI : ticket_inv s)
    (hh : s.d.ticket_head < NIL) (hs : step s o = some s1) :
    ticket_inv s1 ∧
      (s1.d.ticket_tail = s.d.ticket_tail ∨
        (s.d.ticket_tail < s1.d.ticket_tail ∧
          s1.d.ticket_tail ∉ tickets s1.d.invalid_tickets)) := by
  have hb := hI.budget
  have hinc : incr s.d.ticket_head = s.d.ticket_head + 1 := incr_of_lt _ hh
  rcases step_shape s s1 o hs with ⟨e1, e2, e3, l1, l2⟩ | ⟨e1, e2, e3, l1, l2⟩ |
    ⟨e1, e2, e3, l1, l2⟩ | ⟨e1, e2, ⟨t, ht, hne, e3⟩, l1, l2⟩ | ⟨e1, e2, e3, l1⟩
  · refine ⟨⟨?_, ?_, ?_, ?_, ?_⟩, Or.inl e2⟩
    · rw [e1]; exact hI.head_le
    · rw [e1, e3]; exact hI.invalid_lt
    · intro t ht; rw [e1]; exact hI.held_lt t (l2 t ht)
    · rw [e2, e3]; exact hI.tail_valid
    · unfold invalid_ahead
      rw [e1, e2, e3, l1]
      exact hb
  · refine ⟨⟨?_, ?_, ?_, ?_, ?_⟩, Or.inl e2⟩
    · rw [e1, hinc]; omega
    · intro v hv
      rw [e3] at hv
      have := hI.invalid_lt v hv
      rw [e1, hinc]; omega
    · intro t ht
      rw [e1, hinc]
      rcases l2 t ht with h | h
      · have := hI.held_lt t h
        omega
      · omega
    · rw [e2, e3]; exact hI.tail_valid
    · unfold invalid_ahead
      rw [e1, e2, e3, l1, hinc]
      unfold invalid_ahead at hb
      omega
  · obtain ⟨a1, a2, a3, a4⟩ := advance_facts s _ hI hh e2
    refine ⟨⟨?_, ?_, ?_, ?_, ?_⟩, Or.inr ⟨a1, by rw [e3]; exact a3⟩⟩
    · rw [e1]; exact hI.head_le
    · rw [e1, e3]; exact hI.invalid_lt
    · intro t ht; rw [e1]; exact hI.held_lt t (l2 t ht)
    · rw [e3]; exact a3
    · unfold invalid_ahead
      rw [e1, e3]
      omega
  · have htl := hI.held_lt t ht
    have hhl := hI.head_le
    have hT : tickets s1.d.invalid_tickets = tickets s.d.invalid_tickets ++ [t] := by
      rw [e3]
      exact tickets_add _ _ (by omega)
    refine ⟨⟨?_, ?_, ?_, ?_, ?_⟩, Or.inl e2⟩
    · rw [e1]; exact hI.head_le
    · intro v hv
      rw [hT, List.mem_append, List.mem_singleton] at hv
      rw [e1]
      rcases hv with hv | hv
      · exact hI.invalid_lt v hv
      · omega
    · intro t ht; rw [e1]; exact hI.held_lt t (l2 t ht)
    · rw [hT, e2, List.mem_append, List.mem_singleton]
      intro h
      rcases h with h | h
      · exact hI.tail_valid h
      · exact hne h.symm
    · unfold invalid_ahead
      rw [hT, e1, e2, List.countP_append]
      have : List.countP (fun v => decide (s.d.ticket_tail < v)) [t] ≤ 1 := by
        have := List.countP_le_length (fun v => decide (s.d.ticket_tail < v)) (l := [t])
        simpa using this
      unfold invalid_ahead at hb
      omega
  · obtain ⟨a1, a2, a3, a4⟩ := advance_facts s _ hI hh e2
    refine ⟨⟨?_, ?_, ?_, ?_, ?_⟩, Or.inr ⟨a1, by rw [e3]; exact a3⟩⟩
    · rw [e1, hinc]; omega
    · intro v hv
      rw [e3] at hv
      have := hI.invalid_lt v hv
      rw [e1, hinc]; omega
    · intro t ht
      rw [l1] at ht
      have := hI.held_lt t ht
      rw [e1, hinc]; omega
    · rw [e3]; exact a3
    · unfold invalid_ahead
      rw [e1, e3, l1, hinc]
      omega

theorem setup_ticket_inv (files : List file) : ticket_inv (sys_setup files) := by
  refine ⟨?_, ?_, ?_, ?_, ?_⟩ <;>
    simp [sys_setup, osprd_setup, tickets, held_tickets, invalid_ahead, NIL]

theorem run_ticket_inv (ops : List op) :
    ∀ (s s1 : sys), ticket_inv s → no_wrap s ops = true → run s ops = some s1 →
      ticket_inv s1 := by
  induction ops with
  | nil =>
    intro s s1 hI _ hr
    simp only [run, Option.some.injEq] at hr
    subst hr
    exact hI
  | cons o os ih =>
    intro s s1 hI hw hr
    simp only [run] at hr
    simp only [no_wrap, Bool.and_eq_true, decide_eq_true_eq] at hw
    cases hs : step s o with
    | none => simp [hs] at hr
    | some s2 =>
      simp only [hs] at hr hw
      exact ih s2 s1 (ticket_inv_step s s2 o hI hw.1 hs).1 hw.2 hr

/-! ## The cursor -/

/-- C15: in every state reached from the initial state without wrap-around
of `ticket_head`, `ticket_tail` is not in `invalid_tickets`; and every event
that starts there either leaves `ticket_tail` unchanged or sets it to a
strictly greater value that is not in `invalid_tickets`. -/
theorem cursor_monotone_valid (files : List file) (ops : List op) (s s1 : sys) (o : op)
    (hfiles : ∀ f ∈ files, is_locked f = false)
    (hw : no_wrap (sys_setup files) ops = true)
    (hr : run (sys_setup files) ops = some s)
    (hh : s.d.ticket_head < NIL)
    (hs : step s o = some s1) :
    s.d.ticket_tail ∉ tickets s.d.invalid_tickets ∧
      (s1.d.ticket_tail = s.d.ticket_tail ∨
        (s.d.ticket_tail < s1.d.ticket_tail ∧
          s1.d.ticket_tail ∉ tickets s1.d.invalid_tickets)) := by
  have _ := hfiles
  have hI := run_ticket_inv ops _ s (setup_ticket_inv files) hw hr
  exact ⟨hI.tail_valid, (ticket_inv_step s s1 o hI hh hs).2⟩

/-- C15 witness: the theorem applied to `gap_state`, where ticket 2 is
invalid and the interrupted wait for ticket 1 moves `ticket_tail` to 3. -/
theorem cursor_monotone_valid_witness :
    run (sys_setup fairness_files) gap_trace = some gap_state ∧
    step gap_state (.interrupt 0) = some gap_next ∧
    gap_state.d.ticket_tail ∉ tickets gap_state.d.invalid_tickets ∧
      (gap_next.d.ticket_tail = gap_state.d.ticket_tail ∨
        (gap_state.d.ticket_tail < gap_next.d.ticket_tail ∧
          gap_next.d.ticket_tail ∉ tickets gap_next.d.invalid_tickets)) :=
  ⟨by decide, by decide,
   cursor_monotone_valid fairness_files gap_trace gap_state gap_next (.interrupt 0)
     (by decide) (by decide) (by decide) (by decide) (by decide)⟩

/-! ## Try-acquire against an active writer -/

/-- C9: in every state reached from the initial state without wrap-around of
`ticket_head` in which `nwrite = 1`, a try-acquire by any caller through any
handle returns `-EBUSY`, which is not `-EDEADLK`, and leaves `nread`, `nwrite`,
both holder lists and the caller's handle unchanged. -/
theorem tryacquire_active_writer (files : List file) (ops : List op) (s : sys)
    (filp : file) (pid : Nat)
    (hfiles : ∀ f ∈ files, is_locked f = false)
    (hw : no_wrap (sys_setup files) ops = true)
    (hr : run (sys_setup files) ops = some s)
    (hh : s.d.ticket_head < NIL)
    (hnw : s.d.nwrite = 1) :
    ∃ res, osprd_ioctl_tryacquire s.d filp pid = some res ∧ res.r = -EBUSY ∧ res.r ≠ -EDEADLK ∧
      res.d.nread = s.d.nread ∧ res.d.nwrite = s.d.nwrite ∧
      res.d.read_locking_pids = s.d.read_locking_pids ∧
      res.d.write_locking_pids = s.d.write_locking_pids ∧ res.filp = filp := by
  have _ := hfiles
  have hT := run_ticket_inv ops _ s (setup_ticket_inv files) hw hr
  have htl := hT.budget
  obtain ⟨t, ht, _, _⟩ := rvt_bound s.d.invalid_tickets s.d.ticket_tail
    (s.d.ticket_head + 1) (by omega) (by omega)
    (fun v hv => Nat.lt_succ_of_lt (hT.invalid_lt v hv))
  have hc : wait_condition (filp_writable filp)
      { s.d with ticket_head := incr s.d.ticket_head } s.d.ticket_head = false := by
    unfold wait_condition
    split <;> simp [hnw]
  unfold osprd_ioctl_tryacquire tryacquire_ticket tryacquire_failed
  dsimp only
  rw [hc, ht]
  have hne : -EBUSY ≠ -EDEADLK := by decide
  exact ⟨_, rfl, rfl, hne, rfl, rfl, rfl, rfl, rfl⟩

/-- C9 witness: the theorem applied after process 1 has taken the write lock
and process 2 is blocked, for a try-acquire by process 3 through a read-only
handle. -/
theorem tryacquire_active_writer_witness :
    ∃ res, osprd_ioctl_tryacquire writer_and_waiter read_handle 3 = some res ∧ res.r = -EBUSY ∧
      res.r ≠ -EDEADLK ∧
      res.d.nread = writer_and_waiter.nread ∧ res.d.nwrite = writer_and_waiter.nwrite ∧
      res.d.read_locking_pids = writer_and_waiter.read_locking_pids ∧
      res.d.write_locking_pids = writer_and_waiter.write_locking_pids ∧
      res.filp = read_handle :=
  tryacquire_active_writer [write_handle, read_handle, read_handle]
    [.acquire 1 0, .grant 0, .acquire 2 1]
    ⟨writer_and_waiter, [{ f_flags := 0x81002, f_mode := 3 }, read_handle, read_handle],
      [⟨2, 1, 1⟩], []⟩
    read_handle 3 (by decide) (by decide) (by decide) (by decide) (by decide)

/-! ## The unlocked test

The wait condition of `OSPRDIOCACQUIRE` and the test of `OSPRDIOCTRYACQUIRE`
are made with the spinlock released, and the critical section that grants the
lock does not test again.  `race_trace` is a schedule in which the failure
branch of a try-acquire moves `ticket_tail` between the test of one caller and
its grant. -/

/-- C1: evaluation of the code on `race_trace`.  With a reader and a writer
the schedule ends with `nread = 1` and `nwrite = 1`; with two writers it ends
with `nwrite = 2`.  `ticket_head` does not wrap around on the way. -/
theorem race_breaks_mutual_exclusion :
    run (sys_setup race_reader_files) race_trace = some race_reader_state ∧
    no_wrap (sys_setup race_reader_files) race_trace = true ∧
    (race_reader_state.d.nwrite, race_reader_state.d.nread) = (1, 1) ∧
    ¬ (race_reader_state.d.nwrite ≤ 1 ∧
        ¬ (race_reader_state.d.nwrite > 0 ∧ race_reader_state.d.nread > 0)) ∧
    run (sys_setup race_writer_files) race_trace = some race_writer_state ∧
    no_wrap (sys_setup race_writer_files) race_trace = true ∧
    race_writer_state.d.nwrite = 2 ∧
    ¬ (race_writer_state.d.nwrite ≤ 1 ∧
        ¬ (race_writer_state.d.nwrite > 0 ∧ race_writer_state.d.nread > 0)) := by
  decide

/-- C3: evaluation of the code on `race_trace`, where caller 1 holds ticket 0
and caller 3 holds ticket 1.  Both are blocking acquires, both are granted, and
the grant statements run for ticket 1 before they run for ticket 0, although
`ticket_head` does not wrap around. -/
theorem race_grants_out_of_order :
    (run (sys_setup race_reader_files) (race_trace.take 2)).map (fun s => s.waiting) =
      some [⟨1, 0, 0⟩, ⟨3, 2, 1⟩] ∧
    no_wrap (sys_setup race_reader_files) race_trace = true ∧
    grant_log (sys_setup race_reader_files) race_trace = [1, 0] ∧
    no_wrap (sys_setup race_writer_files) race_trace = true ∧
    grant_log (sys_setup race_writer_files) race_trace = [1, 0] := by
  decide

/-- C7: evaluation of the code in `race_writer_state`, where process 1 holds
the write lock through handle 0 and its pid is the second node of the writer
list.  The deadlock test compares the pid with the head node only, so a
blocking acquire by process 1, through its writable handle or through a
read-only one, takes ticket 3 and waits instead of returning `-EDEADLK`. -/
theorem race_hides_write_holder :
    run (sys_setup race_writer_files) race_trace = some race_writer_state ∧
    (race_writer_state.files[0]?).map (fun f => (filp_writable f, is_locked f)) =
      some (true, true) ∧
    1 ∈ holders race_writer_state.d.write_locking_pids ∧
    deadlock_check race_writer_state.d 1 = false ∧
    step race_writer_state (.acquire 1 0) =
      some { race_writer_state with
        d := { race_writer_state.d with ticket_head := 4 },
        waiting := [⟨1, 0, 3⟩] } ∧
    step race_writer_state (.acquire 1 1) =
      some { race_writer_state with
        d := { race_writer_state.d with ticket_head := 4 },
        waiting := [⟨1, 1, 3⟩] } := by
  decide

/-- C19: evaluation of the code on `race_trace` with two writers: the writer
list ends with the two pids 3 and 1, and `nwrite = 2`. -/
theorem race_two_writers_listed :
    run (sys_setup race_writer_files) race_trace = some race_writer_state ∧
    holders race_writer_state.d.write_locking_pids = [3, 1] ∧
    (holders race_writer_state.d.write_locking_pids).length = 2 ∧
    race_writer_state.d.nwrite = 2 := by
  decide

/-! ## Wake-ups -/

/-- C16: evaluation of the code on the events that change `ticket_tail`,
`nread` or `nwrite`.  With two readers blocked behind a released writer, the
grant to the first reader moves `ticket_tail` from 1 to 2 and `nread` from 0
to 1 without calling `wake_up_all`; a successful try-acquire and a failing
try-acquire change `ticket_tail` without calling it either.  The interrupted
wait that advances the cursor, release and close do call it. -/
theorem grant_does_not_wake :
    (run (sys_setup scenario_files) (scenario_start ++ [.release 1 0])).map (fun s => s.d) =
      some readers_waiting ∧
    (readers_waiting.ticket_tail, readers_waiting.nread) = (1, 0) ∧
    (grant_lock readers_waiting read_handle 2).map
        (fun r => (r.r, r.d.ticket_tail, r.d.nread, r.woke)) = some (0, 2, 1, false) ∧
    (osprd_setup.ticket_tail, osprd_setup.nwrite) = (0, 0) ∧
    (osprd_ioctl_tryacquire osprd_setup write_handle 1).map
        (fun r => (r.r, r.d.ticket_tail, r.d.nwrite, r.woke)) = some (0, 1, 1, false) ∧
    writer_and_waiter.ticket_tail = 1 ∧
    (osprd_ioctl_tryacquire writer_and_waiter read_handle 3).map
        (fun r => (r.r, r.d.ticket_tail, r.woke)) = some (-EBUSY, 2, false) ∧
    (acquire_interrupted writer_and_waiter read_handle 1).map
        (fun r => (r.d.ticket_tail, r.woke)) = some (2, true) ∧
    (osprd_ioctl_release two_readers locked_read_handle 2).woke = true ∧
    (osprd_close_last two_readers locked_read_handle 2).woke = true := by
  decide

/-! ## The reference definition of the cursor search -/

theorem tickets_ticket_list_of (ts : List Nat) (h : ∀ t ∈ ts, t < NIL) :
    tickets (ticket_list_of ts) = ts := by
  induction ts using List.reverseRecOn with
  | nil => simp [ticket_list_of, tickets]
  | append_singleton l a ih =>
    have ha : a < NIL := h a (by simp)
    have hl : ∀ t ∈ l, t < NIL := fun t ht => h t (by simp [ht])
    have he : ticket_list_of (l ++ [a]) = add_to_ticket_list (ticket_list_of l) a := by
      simp [ticket_list_of, List.foldl_append]
    rw [he, tickets_add _ _ (by omega), ih hl]

/-- C17: for the invalid-ticket list built by `add_to_ticket_list` from the
empty list out of tickets below `2^32 - 1` (no wrap-around) and for every
32-bit ticket `X`, `return_valid_ticket` returns the smallest integer that is
at least `X` and not a member of the list; it is `X` itself when `X` is not in
the list, and it is never a member of the list. -/
theorem return_valid_ticket_reference (ts : List Nat) (X : Nat)
    (hts : ∀ t ∈ ts, t < NIL) (hX : X < U32) :
    tickets (ticket_list_of ts) = ts ∧
    ∃ r, return_valid_ticket (ticket_list_of ts) X = some r ∧ X ≤ r ∧ r ∉ ts ∧
      (∀ v, X ≤ v → v ∉ ts → r ≤ v) ∧ (X ∉ ts → r = X) := by
  have ht := tickets_ticket_list_of ts hts
  refine ⟨ht, ?_⟩
  have hn : NIL ∉ tickets (ticket_list_of ts) := by
    rw [ht]
    intro h
    have := hts _ h
    omega
  obtain ⟨r, hr, hr1, _, hr3, hr4⟩ := return_valid_ticket_least (ticket_list_of ts) X NIL
    (by unfold NIL; unfold U32 at hX; omega) (by decide) hn
  rw [ht] at hr3 hr4
  refine ⟨r, hr, hr1, hr3, hr4, fun hx => ?_⟩
  have := hr4 X (le_refl _) hx
  omega

/-- C17 witness: the theorem applied to the list built from tickets 2, 3, 5
and the ticket 2. -/
theorem return_valid_ticket_reference_witness :
    tickets (ticket_list_of [2, 3, 5]) = [2, 3, 5] ∧
    ∃ r, return_valid_ticket (ticket_list_of [2, 3, 5]) 2 = some r ∧ 2 ≤ r ∧ r ∉ [2, 3, 5] ∧
      (∀ v, 2 ≤ v → v ∉ [2, 3, 5] → r ≤ v) ∧ (2 ∉ [2, 3, 5] → r = 2) :=
  return_valid_ticket_reference [2, 3, 5] 2 (by decide) (by decide)

/-! ## Removal from a holder list -/

/-- C18: evaluation of `remove_from_list` on the one-node reader list that
holds pid 5 (the list of `one_reader`) and the absent value 7: the list is
emptied.  On a two-node list the same call changes nothing. -/
theorem remove_absent_from_singleton :
    holders one_reader.read_locking_pids = [5] ∧
    (7 : Nat) ∉ holders one_reader.read_locking_pids ∧
    remove_from_list one_reader.read_locking_pids 7 = ⟨NIL, []⟩ ∧
    holders (remove_from_list one_reader.read_locking_pids 7) = [] ∧
    remove_from_list two_readers.read_locking_pids 7 = two_readers.read_locking_pids := by
  decide

/-! ## Counts and handle flags -/

/-- C20: evaluation of the code when process 1 runs `OSPRDIOCTRYACQUIRE`
twice on the same read-only handle: both calls are granted, `nread` is 2 and
one handle has its locked flag set.  After one release the flag is clear and
`nread` is still 1. -/
theorem tryacquire_twice_counts :
    (run (sys_setup [read_handle]) [.tryacquire 1 0, .tryacquire 1 0]).map
        (fun s => (s.d.nread, s.files.countP rlocked, s.d.nwrite, s.files.countP wlocked,
          s.files)) =
      some (2, 1, 0, 0, [locked_read_handle]) ∧
    grant_log (sys_setup [read_handle]) [.tryacquire 1 0, .tryacquire 1 0] = [0, 1] ∧
    (run (sys_setup [read_handle]) [.tryacquire 1 0, .tryacquire 1 0, .release 1 0]).map
        (fun s => (s.d.nread, s.files.countP rlocked, s.files)) =
      some (1, 0, [read_handle]) := by
  decide

/-! ## Round trip on a holder list -/

/-- C21: evaluation of the code on the reader list that holds pid 5, for
pid 6, which is not in the list.  `add_to_pid_list` links a node whose `next`
was never assigned; when that pointer leads to a node with value 7, removing
pid 6 again leaves the list `5 -> 7`, not the original list.  The original
list comes back when the unassigned pointer happens to be `NULL`, and when the
original list is empty. -/
theorem round_trip_keeps_uninit :
    6 ∉ holders one_reader.read_locking_pids ∧
    add_to_pid_list one_reader.read_locking_pids 6 [7] = ⟨5, [6, 7]⟩ ∧
    remove_from_list (add_to_pid_list one_reader.read_locking_pids 6 [7]) 6 = ⟨5, [7]⟩ ∧
    remove_from_list (add_to_pid_list one_reader.read_locking_pids 6 [7]) 6 ≠
      one_reader.read_locking_pids ∧
    remove_from_list (add_to_pid_list one_reader.read_locking_pids 6 []) 6 =
      one_reader.read_locking_pids ∧
    remove_from_list (add_to_pid_list osprd_setup.read_locking_pids 6 [7]) 6 =
      osprd_setup.read_locking_pids := by
  decide

/-! ## Number of recursive calls of the cursor search -/

theorem calls_mono (l : node_t) :
    ∀ (f g t r : Nat), return_valid_ticket_calls f l t = some r → f ≤ g →
      return_valid_ticket_calls g l t = some r := by
  intro f
  induction f with
  | zero =>
    intro g t r h _
    simp [return_valid_ticket_calls] at h
  | succ f ih =>
    intro g t r h hfg
    cases g with
    | zero => omega
    | succ g =>
      unfold return_valid_ticket_calls at h ⊢
      by_cases hn : l.val = NIL
      · rw [if_pos hn] at h ⊢
        exact h
      · rw [if_neg hn] at h ⊢
        by_cases hm : t ∈ l.vals
        · rw [if_pos hm] at h ⊢
          exact ih g _ r h (by omega)
        · rw [if_neg hm] at h ⊢
          exact h

theorem depth_of_calls (l : node_t) :
    ∀ (f t r : Nat), return_valid_ticket_calls f l t = some r →
      ∃ n, return_valid_ticket_depth f l t = some n ∧ n < f := by
  intro f
  induction f with
  | zero =>
    intro t r h
    simp [return_valid_ticket_calls] at h
  | succ f ih =>
    intro t r h
    unfold return_valid_ticket_calls at h
    unfold return_valid_ticket_depth
    by_cases hn : l.val = NIL
    · rw [if_pos hn]
      exact ⟨0, rfl, by omega⟩
    · rw [if_neg hn] at h ⊢
      by_cases hm : t ∈ l.vals
      · rw [if_pos hm] at h ⊢
        obtain ⟨n, hn1, hn2⟩ := ih _ r h
        rw [hn1]
        exact ⟨n + 1, rfl, by omega⟩
      · rw [if_neg hm]
        exact ⟨0, rfl, by omega⟩

theorem depth_mono (l : node_t) :
    ∀ (f g t n : Nat), return_valid_ticket_depth f l t = some n → f ≤ g →
      return_valid_ticket_depth g l t = some n := by
  intro f
  induction f with
  | zero =>
    intro g t n h _
    simp [return_valid_ticket_depth] at h
  | succ f ih =>
    intro g t n h hfg
    cases g with
    | zero => omega
    | succ g =>
      unfold return_valid_ticket_depth at h ⊢
      by_cases hn : l.val = NIL
      · rw [if_pos hn] at h ⊢
        exact h
      · rw [if_neg hn] at h ⊢
        by_cases hm : t ∈ l.vals
        · rw [if_pos hm] at h ⊢
          cases hd : return_valid_ticket_depth f l ((t + 1) % U32) with
          | none => simp [hd] at h
          | some m =>
            rw [ih g _ m hd (by omega)]
            rw [hd] at h
            exact h
        · rw [if_neg hm] at h ⊢
          exact h

theorem calls_fuel_distinct (l : node_t) (t : Nat) (ht : t < U32)
    (hd : (tickets l).dedup.length < U32) :
    ∃ r, return_valid_ticket_calls ((tickets l).dedup.length + 1) l t = some r := by
  cases h : return_valid_ticket_calls ((tickets l).dedup.length + 1) l t with
  | some r => exact ⟨r, rfl⟩
  | none =>
    exfalso
    have hnil : l.val ≠ NIL := by
      intro hn
      unfold return_valid_ticket_calls at h
      rw [if_pos hn] at h
      cases h
    have htk : tickets l = l.vals := by
      unfold tickets
      rw [if_neg hnil]
    have hm := calls_none_mem l ((tickets l).dedup.length + 1) t ht h
    have hnd : ((List.range ((tickets l).dedup.length + 1)).map
        (fun i => (t + i) % U32)).Nodup := by
      apply List.Nodup.map_on _ (List.nodup_range _)
      intro x hx y hy hxy
      rw [List.mem_range] at hx hy
      unfold U32 at hxy hd
      omega
    have hsub : (List.range ((tickets l).dedup.length + 1)).map (fun i => (t + i) % U32) ⊆
        (tickets l).dedup := by
      intro v hv
      rw [List.mem_map] at hv
      obtain ⟨i, hi, rfl⟩ := hv
      rw [List.mem_dedup, htk]
      exact hm i (List.mem_range.mp hi)
    have := (List.subperm_of_subset hnd hsub).length_le
    simp at this

theorem tickets_length_le (l : node_t) : (tickets l).length ≤ l.vals.length := by
  unfold tickets
  split <;> simp [node_t.vals]

/-- C22: for every invalid-ticket list with fewer than `2^32` distinct values
and every 32-bit ticket, `return_valid_ticket` returns, and the number of
recursive calls it makes is at most the number of distinct values of the list,
hence at most the number of list elements. -/
theorem return_valid_ticket_terminates (l : node_t) (t : Nat) (ht : t < U32)
    (hd : (tickets l).dedup.length < U32) :
    ∃ r n, return_valid_ticket l t = some r ∧
      return_valid_ticket_depth (l.vals.length + 1) l t = some n ∧
      n ≤ (tickets l).dedup.length ∧ (tickets l).dedup.length ≤ (tickets l).length := by
  obtain ⟨r, hr⟩ := calls_fuel_distinct l t ht hd
  obtain ⟨n, hn1, hn2⟩ := depth_of_calls l _ t r hr
  have hle : (tickets l).dedup.length ≤ (tickets l).length := (List.dedup_sublist _).length_le
  have hle2 := tickets_length_le l
  refine ⟨r, n, ?_, depth_mono l _ _ t n hn1 (by omega), by omega, hle⟩
  unfold return_valid_ticket
  exact calls_mono l _ _ t r hr (by omega)

/-- C22 witness: the theorem applied to the list built from tickets 2, 3, 5,
3 and the ticket 2. -/
theorem return_valid_ticket_terminates_witness :
    ∃ r n, return_valid_ticket (ticket_list_of [2, 3, 5, 3]) 2 = some r ∧
      return_valid_ticket_depth ((ticket_list_of [2, 3, 5, 3]).vals.length + 1)
        (ticket_list_of [2, 3, 5, 3]) 2 = some n ∧
      n ≤ (tickets (ticket_list_of [2, 3, 5, 3])).dedup.length ∧
      (tickets (ticket_list_of [2, 3, 5, 3])).dedup.length ≤
        (tickets (ticket_list_of [2, 3, 5, 3])).length :=
  return_valid_ticket_terminates (ticket_list_of [2, 3, 5, 3]) 2 (by decide) (by decide)

end Osprd
